import Mathlib

/-!
# One-time download service (`backend/server.js`)

A shallow embedding of the three request handlers of `backend/server.js`

* `GET  /api/meta/:token`   (`apiMeta`)
* `POST /api/upload`        (`apiUpload`, with its validation prefix `validate`)
* `GET  /download/:token`   (`download`)

over an explicit model of the two external collaborators the handlers talk to:
the `files` table and the `encrypted` storage bucket.  Every call to a
collaborator can fail; the failure is an input of the handler (a field of its
environment), so that the handlers stay pure, total functions.  A handler
returns the new state of the collaborators, the calls it made in order, and its
response.  The handlers are functions of the parsed request (the body as the
body parser left it, the headers, the route parameter); `postUpload` is the
upload route with the body parser in front of its handler.

Strings are Lean strings (sequences of Unicode scalar values), byte payloads are
lists of octets, instants are milliseconds since the epoch.
-/

namespace WebTest

/-! ## JavaScript string primitives used by the handlers -/

/-- An octet of a request body. -/
abbrev Byte := Fin 256

/-- A binary payload (`Buffer`). -/
abbrev Bytes := List Byte

/-- Value of a hexadecimal digit, `none` when the character is no hex digit. -/
def hexDigit (c : Char) : Option Nat :=
  if '0' ≤ c ∧ c ≤ '9' then some (c.toNat - '0'.toNat)
  else if 'a' ≤ c ∧ c ≤ 'f' then some (c.toNat - 'a'.toNat + 10)
  else if 'A' ≤ c ∧ c ≤ 'F' then some (c.toNat - 'A'.toNat + 10)
  else none

/-- A unit of a percent-encoded string: a literal character or an escaped octet `%XX`. -/
inductive UriUnit where
  | lit (c : Char)
  | octet (b : Nat)
  deriving DecidableEq, Repr

/-- First pass of `decodeURIComponent`: every `%` must be followed by two hex
digits (otherwise `URIError`, here `none`); all other characters stand for
themselves. -/
def uriUnits : List Char → Option (List UriUnit)
  | [] => some []
  | '%' :: h :: l :: rest =>
    match hexDigit h, hexDigit l, uriUnits rest with
    | some a, some b, some us => some (UriUnit.octet (16 * a + b) :: us)
    | _, _, _ => none
  | c :: rest =>
    if c = '%' then none
    else match uriUnits rest with
      | some us => some (UriUnit.lit c :: us)
      | none => none

/-- A UTF-8 continuation octet `10xxxxxx`. -/
def isCont (b : Nat) : Bool := 0x80 ≤ b && b ≤ 0xBF

/-- Second pass of `decodeURIComponent`: escaped octets below `0x80` are ASCII
characters; an octet with `n` leading one bits (`2 ≤ n ≤ 4`) must be followed by
`n - 1` escaped continuation octets that together are the well-formed UTF-8
encoding of a code point; anything else is a `URIError` (`none`). -/
def uriDecodeUnits : List UriUnit → Option (List Char)
  | [] => some []
  | UriUnit.lit c :: rest => (uriDecodeUnits rest).map (c :: ·)
  | UriUnit.octet b0 :: rest =>
    if b0 < 0x80 then (uriDecodeUnits rest).map (Char.ofNat b0 :: ·)
    else if b0 < 0xC0 then none
    else if b0 < 0xE0 then
      match rest with
      | UriUnit.octet b1 :: rest1 =>
        let cp := (b0 % 0x20) * 0x40 + b1 % 0x40
        if isCont b1 && 0x80 ≤ cp then (uriDecodeUnits rest1).map (Char.ofNat cp :: ·)
        else none
      | _ => none
    else if b0 < 0xF0 then
      match rest with
      | UriUnit.octet b1 :: UriUnit.octet b2 :: rest2 =>
        let cp := (b0 % 0x10) * 0x1000 + (b1 % 0x40) * 0x40 + b2 % 0x40
        if isCont b1 && isCont b2 && 0x800 ≤ cp && !(0xD800 ≤ cp && cp ≤ 0xDFFF) then
          (uriDecodeUnits rest2).map (Char.ofNat cp :: ·)
        else none
      | _ => none
    else if b0 < 0xF8 then
      match rest with
      | UriUnit.octet b1 :: UriUnit.octet b2 :: UriUnit.octet b3 :: rest3 =>
        let cp := (b0 % 0x08) * 0x40000 + (b1 % 0x40) * 0x1000 + (b2 % 0x40) * 0x40 + b3 % 0x40
        if isCont b1 && isCont b2 && isCont b3 && 0x10000 ≤ cp && cp ≤ 0x10FFFF then
          (uriDecodeUnits rest3).map (Char.ofNat cp :: ·)
        else none
      | _ => none
    else none

/-- The function `decodeURIComponent(s)`; `none` stands for the thrown `URIError`. -/
def decodeURIComponent (s : String) : Option String :=
  match uriUnits s.data with
  | none => none
  | some us => (uriDecodeUnits us).map String.mk

/-- White space and line terminators of ECMAScript, the characters removed by
`String.prototype.trim`. -/
def isJsWhiteSpace (c : Char) : Bool :=
  let n := c.toNat
  n = 0x09 || n = 0x0A || n = 0x0B || n = 0x0C || n = 0x0D || n = 0x20 || n = 0xA0 ||
  n = 0x1680 || (0x2000 ≤ n && n ≤ 0x200A) || n = 0x2028 || n = 0x2029 || n = 0x202F ||
  n = 0x205F || n = 0x3000 || n = 0xFEFF

/-- The method `s.trim()`. -/
def jsTrim (s : String) : String :=
  String.mk ((s.data.dropWhile isJsWhiteSpace).reverse.dropWhile isJsWhiteSpace).reverse

/-- Membership in the character class `[a-zA-Z0-9_.\- ]`. -/
def isNameChar (c : Char) : Bool :=
  ('a' ≤ c && c ≤ 'z') || ('A' ≤ c && c ≤ 'Z') || ('0' ≤ c && c ≤ '9') ||
  c = '_' || c = '.' || c = '-' || c = ' '

/-- The test `/[^a-zA-Z0-9_.\- ]/.test(s)`: some character lies outside the class. -/
def hasIllegalChar (s : String) : Bool :=
  s.data.any (fun c => !isNameChar c)

/-- The call `s.split('.')` on the characters of `s`. -/
def splitDot : List Char → List (List Char)
  | [] => [[]]
  | c :: cs =>
    if c = '.' then [] :: splitDot cs
    else match splitDot cs with
      | [] => [[c]]
      | seg :: segs => (c :: seg) :: segs

/-- The expression `s.split('.').pop()`. -/
def lastSegment (s : String) : String :=
  String.mk ((splitDot s.data).getLastD [])

/-- The method `s.toLowerCase()`.  It is only applied to a name that passed the
character-class test, so only ASCII letters are affected. -/
def toLowerCase (s : String) : String :=
  String.mk (s.data.map Char.toLower)

/-! ## Validation rules of the upload handler -/

deriving instance DecidableEq for Except

/-- Size ceiling: `5 * 1024 * 1024` bytes. -/
def MAX_SIZE : Nat := 5 * 1024 * 1024

/-- Accepted values of the `x-mime` header. -/
def ALLOWED_MIME : List String := ["image/png", "image/jpeg", "application/pdf"]

/-- Accepted file name extensions. -/
def ALLOWED_EXT : List String := ["png", "jpg", "jpeg", "pdf"]

/-- What the upload handler reads of a request: the parsed body (`none` when the
body parser produced no `Buffer`) and the two headers (`none` when absent). -/
structure UploadReq where
  body : Option Bytes
  xMime : Option String
  xFilename : Option String

/-- What validation hands to the storing part of the handler. -/
structure Accepted where
  fileBuffer : Bytes
  mime : String
  rawName : String
  deriving DecidableEq

/-- `ALLOWED_MIME.includes(mime)` for a possibly absent header. -/
def mimeAllowed : Option String → Option String
  | some m => if m ∈ ALLOWED_MIME then some m else none
  | none => none

/-- Message of the `URIError` thrown by `decodeURIComponent`. -/
def uriMalformed : String := "URI malformed"

/-- The validation prefix of `app.post('/api/upload')` (from reading the body up
to the extension check): the thrown error's message, or the accepted values.
In the message of the size check the character between `5` and `MB` is U+202F
(narrow no-break space), as in the source.  The handler is a function of any
buffer; which buffers the body parser hands to it is the matter of `postUpload`. -/
def validate (req : UploadReq) : Except String Accepted :=
  match req.body with
  | none => .error "file kosong"
  | some fileBuffer =>
    if fileBuffer.length = 0 then .error "file kosong"
    else if fileBuffer.length > MAX_SIZE then .error "file > 5\u202fMB"
    else match mimeAllowed req.xMime with
      | none => .error "MIME tidak valid"
      | some mime =>
        match decodeURIComponent (req.xFilename.getD "") with
        | none => .error uriMalformed
        | some decoded =>
          let rawName := jsTrim decoded
          if rawName = "" then .error "nama file wajib"
          else if hasIllegalChar rawName then .error "nama file ilegal"
          else
            let ext := toLowerCase (lastSegment rawName)
            if ext ∈ ALLOWED_EXT then .ok ⟨fileBuffer, mime, rawName⟩
            else .error "ekstensi dilarang"

/-! ## The validation rules as the specification words them -/

/-- The declared file name after decoding and trimming, when the header decodes. -/
def declaredName (req : UploadReq) : Option String :=
  (decodeURIComponent (req.xFilename.getD "")).map jsTrim

/-- The allow-set of file name characters: an ASCII letter, a digit, underscore,
hyphen, period or space. -/
def inAllowSet (c : Char) : Bool :=
  c.isAlpha || c.isDigit || c == '_' || c == '-' || c == '.' || c == ' '

/-- The substring after the last `.` of a name: its longest suffix without a
period (the whole name when it has no period). -/
def afterLastDot (name : String) : String :=
  String.mk (name.data.reverse.takeWhile (fun c => c != '.')).reverse

/-- The acceptance set of the validator, condition by condition. -/
def Acceptable (req : UploadReq) : Prop :=
  ∃ payload, req.body = some payload ∧
    0 < payload.length ∧ payload.length ≤ 5 * 1024 * 1024 ∧
    (req.xMime = some "image/png" ∨ req.xMime = some "image/jpeg" ∨
      req.xMime = some "application/pdf") ∧
    ∃ decoded, decodeURIComponent (req.xFilename.getD "") = some decoded ∧
      jsTrim decoded ≠ "" ∧
      (∀ c ∈ (jsTrim decoded).data, inAllowSet c = true) ∧
      toLowerCase (afterLastDot (jsTrim decoded)) ∈ ["png", "jpg", "jpeg", "pdf"]

/-- A rule of the validator: whether a request fails it, and the reason reported. -/
structure Rule where
  fails : UploadReq → Bool
  reason : String

/-- Rule 1: the payload is non-empty. -/
def ruleNonEmpty : Rule :=
  ⟨fun req => (req.body.getD []).length == 0, "file kosong"⟩

/-- Rule 2: the payload is at most 5 MiB long.  The reason is the message the
source throws, with U+202F (narrow no-break space) between `5` and `MB`. -/
def ruleSize : Rule :=
  ⟨fun req => decide ((req.body.getD []).length > 5 * 1024 * 1024), "file > 5\u202fMB"⟩

/-- Rule 3: the declared MIME type is in the allow-list. -/
def ruleMime : Rule :=
  ⟨fun req => decide (req.xMime ∉
      [some "image/png", some "image/jpeg", some "application/pdf"]), "MIME tidak valid"⟩

/-- The decoding step between rules 3 and 4: the file name header is
well-formed percent-encoding. -/
def ruleDecodable : Rule :=
  ⟨fun req => (declaredName req).isNone, uriMalformed⟩

/-- Rule 4: the decoded file name is non-empty after trimming. -/
def ruleNamePresent : Rule :=
  ⟨fun req => declaredName req == some "", "nama file wajib"⟩

/-- Rule 5: every character of the file name is in the allow-set. -/
def ruleNameChars : Rule :=
  ⟨fun req => ((declaredName req).getD "").data.any (fun c => !inAllowSet c), "nama file ilegal"⟩

/-- Rule 6: the extension, lower-cased, is in the allow-list. -/
def ruleExtension : Rule :=
  ⟨fun req => decide (toLowerCase (afterLastDot ((declaredName req).getD "")) ∉
      ["png", "jpg", "jpeg", "pdf"]), "ekstensi dilarang"⟩

/-- The six rules in the order of the specification. -/
def sixRules : List Rule :=
  [ruleNonEmpty, ruleSize, ruleMime, ruleNamePresent, ruleNameChars, ruleExtension]

/-- The six rules with the decoding step at its place. -/
def sevenRules : List Rule :=
  [ruleNonEmpty, ruleSize, ruleMime, ruleDecodable, ruleNamePresent, ruleNameChars,
    ruleExtension]

/-- Reason of the first rule of the list that the request fails, if any. -/
def firstFailure (rules : List Rule) (req : UploadReq) : Option String :=
  (rules.find? (fun r => r.fails req)).map Rule.reason

/-- The reason the validation prefix reports, `none` when it accepts. -/
def reported (req : UploadReq) : Option String :=
  match validate req with
  | .error message => some message
  | .ok _ => none

/-! ## The external collaborators: the `files` table and the `encrypted` bucket -/

/-- A row of the table `files`.  `expires_at` is the instant in milliseconds. -/
structure FileRow where
  id : String
  original_name : String
  mime : String
  size : Nat
  expires_at : Nat
  used : Bool
  deriving DecidableEq, Repr

/-- An object of the storage bucket `encrypted`. -/
structure StoredObject where
  path : String
  body : Bytes
  contentType : String
  deriving DecidableEq, Repr

/-- State of the two collaborators. -/
structure Store where
  files : List FileRow
  encrypted : List StoredObject
  deriving DecidableEq, Repr

/-- A signed URL: it names the object it gives access to and its lifetime in seconds. -/
structure SignedUrl where
  path : String
  expiresIn : Nat
  deriving DecidableEq, Repr

/-- The calls a handler makes, in the order in which it makes them, with their outcome. -/
inductive Call where
  | nanoid (id : String)
  | storageUpload (path : String) (body : Bytes) (contentType : String) (ok : Bool)
  | insert (row : FileRow) (ok : Bool)
  | select (columns : String) (id : String) (found : Bool)
  | update (id : String) (ok : Bool)
  | createSignedUrl (path : String) (expiresIn : Nat) (ok : Bool)
  deriving DecidableEq, Repr

/-- What a handler sends back. -/
inductive Response where
  | json (status : Nat) (body : List (String × String))
  | send (status : Nat) (body : String)
  | redirect (location : SignedUrl)
  deriving DecidableEq, Repr

/-- Rows of `files` whose `id` is `token` (`.eq('id', token)`). -/
def Store.rowsOf (s : Store) (token : String) : List FileRow :=
  s.files.filter (fun r => r.id == token)

/-- The query `.select(..).eq('id', token).single()`: the row, when the store
answers and exactly one row matches; `none` stands for `error` set or no data. -/
def Store.selectSingle (s : Store) (token : String) (fault : Bool) : Option FileRow :=
  if fault then none
  else match s.rowsOf token with
    | [r] => some r
    | _ => none

/-- Message of the store when an inserted `id` is already present. -/
def duplicateKey : String := "duplicate key value violates unique constraint"

/-- Modelled from the spec: the schema of the table `files` is not part of the
source; its `id` is unique (data model) and `Insert` answers ok, Conflict or
StoreError.  `.insert(row)`: the new store and the reported error, if any. -/
def Store.insert (s : Store) (row : FileRow) (fault : Option String) : Store × Option String :=
  match fault with
  | some e => (s, some e)
  | none =>
    if s.files.any (fun r => r.id == row.id) then (s, some duplicateKey)
    else ({ s with files := s.files ++ [row] }, none)

/-- The statement `.update({ used: true }).eq('id', token)`: every row with this
id gets `used = true`, unless the store fails, in which case nothing changes. -/
def Store.updateUsed (s : Store) (token : String) (fault : Bool) : Store :=
  if fault then s
  else { s with files := s.files.map (fun r => if r.id == token then { r with used := true } else r) }

/-- Message of the bucket when the path is already taken. -/
def resourceExists : String := "The resource already exists"

/-- The call `storage.from('encrypted').upload(path, body, { contentType })`.
The handler passes no `upsert` option, so the bucket does not overwrite: a path
that is already taken is an error.  The new store and the reported error, if any. -/
def Store.upload (s : Store) (path : String) (body : Bytes) (contentType : String)
    (fault : Option String) : Store × Option String :=
  match fault with
  | some e => (s, some e)
  | none =>
    if s.encrypted.any (fun o => o.path == path) then (s, some resourceExists)
    else ({ s with encrypted := s.encrypted ++ [⟨path, body, contentType⟩] }, none)

/-- The call `storage.from('encrypted').createSignedUrl(path, expiresIn)`: its
`data`, `none` when the bucket reports an error. -/
def createSignedUrl (path : String) (expiresIn : Nat) (fault : Bool) : Option SignedUrl :=
  if fault then none else some ⟨path, expiresIn⟩

/-! ## The handlers -/

/-- Inputs of one run of the upload handler besides the request. -/
structure UploadEnv where
  /-- the identifier returned by `nanoid(12)` -/
  nanoid : String
  /-- the value of `Date.now()` -/
  now : Nat
  /-- the value of `process.env.BASE_URL` -/
  BASE_URL : String
  /-- the error reported by the bucket, if it fails -/
  upFault : Option String
  /-- the error reported by the table, if it fails -/
  dbFault : Option String
  deriving DecidableEq, Repr

/-- Inputs of one run of the download handler besides the token. -/
structure DownloadEnv where
  /-- the instant `new Date()` -/
  now : Nat
  /-- the query answers with an error -/
  selectFault : Bool
  /-- the update answers with an error and changes nothing -/
  updateFault : Bool
  /-- the bucket answers with an error and no data -/
  signFault : Bool
  deriving DecidableEq, Repr

/-- The expression `err.message || 'upload failed'`. -/
def orUploadFailed (message : String) : String :=
  if message = "" then "upload failed" else message

/-- Message of the `TypeError` raised by `signed.signedUrl` when `signed` is `null`. -/
def nullSigned : String := "Cannot read properties of null (reading 'signedUrl')"

/-- Handler `app.get('/api/meta/:token')`. -/
def apiMeta (fault : Bool) (token : String) (s : Store) : Store × List Call × Response :=
  match s.selectSingle token fault with
  | none =>
    (s, [.select "original_name, mime" token false],
      .json 404 [("error", "metadata tidak ditemukan")])
  | some data =>
    (s, [.select "original_name, mime" token true],
      .json 200 [("original_name", data.original_name), ("mime", data.mime)])

/-- Handler `app.post('/api/upload')`. -/
def apiUpload (env : UploadEnv) (req : UploadReq) (s : Store) : Store × List Call × Response :=
  match validate req with
  | .error message => (s, [], .json 400 [("error", orUploadFailed message)])
  | .ok a =>
    let id := env.nanoid
    let path := id ++ ".bin"
    match s.upload path a.fileBuffer "application/octet-stream" env.upFault with
    | (s1, some upErr) =>
      (s1, [.nanoid id, .storageUpload path a.fileBuffer "application/octet-stream" false],
        .json 400 [("error", orUploadFailed upErr)])
    | (s1, none) =>
      let expires := env.now + 24 * 3600 * 1000
      let row : FileRow := ⟨id, a.rawName, a.mime, a.fileBuffer.length, expires, false⟩
      match s1.insert row env.dbFault with
      | (s2, some dbErr) =>
        (s2, [.nanoid id, .storageUpload path a.fileBuffer "application/octet-stream" true,
              .insert row false],
          .json 400 [("error", orUploadFailed dbErr)])
      | (s2, none) =>
        (s2, [.nanoid id, .storageUpload path a.fileBuffer "application/octet-stream" true,
              .insert row true],
          .json 200 [("token", id), ("downloadUrl", env.BASE_URL ++ "/download/" ++ id)])

/-- Handler `app.get('/download/:token')`. -/
def download (env : DownloadEnv) (token : String) (s : Store) : Store × List Call × Response :=
  match s.selectSingle token env.selectFault with
  | none => (s, [.select "*" token false], .send 404 "token tidak ditemukan")
  | some row =>
    if row.used then (s, [.select "*" token true], .send 404 "token sudah dipakai")
    else if row.expires_at < env.now then
      (s, [.select "*" token true], .send 404 "token kedaluwarsa")
    else
      let s1 := s.updateUsed token env.updateFault
      match createSignedUrl (token ++ ".bin") 60 env.signFault with
      | none =>
        (s1, [.select "*" token true, .update token (!env.updateFault),
              .createSignedUrl (token ++ ".bin") 60 false],
          .send 404 nullSigned)
      | some signed =>
        (s1, [.select "*" token true, .update token (!env.updateFault),
              .createSignedUrl (token ++ ".bin") 60 true],
          .redirect signed)

/-- A request to the service together with the inputs of its run. -/
inductive Request where
  | meta (fault : Bool) (token : String)
  | upload (env : UploadEnv) (req : UploadReq)
  | download (env : DownloadEnv) (token : String)

/-- One request served by its handler. -/
def handle : Request → Store → Store × List Call × Response
  | .meta fault token, s => apiMeta fault token s
  | .upload env req, s => apiUpload env req s
  | .download env token, s => download env token s

/-- Requests served one after the other; the resulting store. -/
def serve : List Request → Store → Store
  | [], s => s
  | r :: rs, s => serve rs (handle r s).1

/-! ## Interleaved runs of the download handler

The download handler gives up control at each of its three `await`s.  A run is
therefore three atomic steps (query and checks, update, signed URL), and the
steps of several runs interleave in any order. -/

/-- Where a run of the download handler stands. -/
inductive Pc where
  /-- before the query -/
  | start
  /-- the row was found and passed the checks; the update comes next -/
  | checked
  /-- the update was awaited; the signed URL comes next -/
  | marked
  /-- the response was sent -/
  | done (r : Response)
  deriving DecidableEq, Repr

/-- A run of the download handler. -/
structure Run where
  env : DownloadEnv
  token : String
  pc : Pc
  deriving DecidableEq, Repr

/-- The next atomic step of a run: new store, calls made, run afterwards. -/
def Run.step (r : Run) (s : Store) : Store × List Call × Run :=
  match r.pc with
  | .start =>
    match s.selectSingle r.token r.env.selectFault with
    | none =>
      (s, [.select "*" r.token false], { r with pc := .done (.send 404 "token tidak ditemukan") })
    | some row =>
      if row.used then
        (s, [.select "*" r.token true], { r with pc := .done (.send 404 "token sudah dipakai") })
      else if row.expires_at < r.env.now then
        (s, [.select "*" r.token true], { r with pc := .done (.send 404 "token kedaluwarsa") })
      else (s, [.select "*" r.token true], { r with pc := .checked })
  | .checked =>
    (s.updateUsed r.token r.env.updateFault, [.update r.token (!r.env.updateFault)],
      { r with pc := .marked })
  | .marked =>
    match createSignedUrl (r.token ++ ".bin") 60 r.env.signFault with
    | none =>
      (s, [.createSignedUrl (r.token ++ ".bin") 60 false],
        { r with pc := .done (.send 404 nullSigned) })
    | some signed =>
      (s, [.createSignedUrl (r.token ++ ".bin") 60 true], { r with pc := .done (.redirect signed) })
  | .done _ => (s, [], r)

/-- The store, the runs in flight and the calls made so far. -/
structure Sys where
  store : Store
  runs : List Run
  calls : List Call
  deriving DecidableEq, Repr

/-- Run number `i` takes its next step. -/
def Sys.step (i : Nat) (sys : Sys) : Sys :=
  match sys.runs.get? i with
  | none => sys
  | some r =>
    match r.step sys.store with
    | (s, cs, r1) => ⟨s, sys.runs.set i r1, sys.calls ++ cs⟩

/-- The runs take steps in the order given by the schedule. -/
def Sys.exec : List Nat → Sys → Sys
  | [], sys => sys
  | i :: is, sys => Sys.exec is (sys.step i)

/-- `N` downloads of one token, all at the instant `now`, none started yet. -/
def raceOn (token : String) (now : Nat) (n : Nat) (s : Store) : Sys :=
  ⟨s, List.replicate n ⟨⟨now, false, false, false⟩, token, .start⟩, []⟩

/-- Access granted: the caller is redirected to the signed URL of the token's
object and every row of the token is marked used afterwards. -/
def Granted (d : DownloadEnv) (token : String) (s : Store) : Prop :=
  (download d token s).2.2 = .redirect ⟨token ++ ".bin", 60⟩ ∧
    ∀ r ∈ (download d token s).1.rowsOf token, r.used = true

/-- The row the upload handler inserts for the accepted values `a`. -/
def issuedRow (env : UploadEnv) (a : Accepted) : FileRow :=
  ⟨env.nanoid, a.rawName, a.mime, a.fileBuffer.length, env.now + 24 * 3600 * 1000, false⟩

/-- The object the upload handler stores for the accepted values `a`. -/
def issuedObject (env : UploadEnv) (a : Accepted) : StoredObject :=
  ⟨env.nanoid ++ ".bin", a.fileBuffer, "application/octet-stream"⟩

/-- Every row of `files` has its object `id + ".bin"` in the bucket. -/
def Backed (s : Store) : Prop :=
  ∀ r ∈ s.files, ∃ o ∈ s.encrypted, o.path = r.id ++ ".bin"

/-- Modelled from the spec: the bucket's answer to a GET of a signed URL is not
part of the source.  A retrieval locator gives direct access to the stored
object it names while its lifetime lasts: the body of the object at its path,
`elapsed` seconds after the URL was signed. -/
def fetchSigned (s : Store) (u : SignedUrl) (elapsed : Nat) : Option Bytes :=
  if elapsed < u.expiresIn then
    (s.encrypted.find? (fun o => o.path == u.path)).map StoredObject.body
  else none

/-! ## The upload route behind the body parser -/

/-- The limit `'5mb'` given to `express.raw`: 5 * 1024 * 1024 bytes. -/
def rawLimit : Nat := 5 * 1024 * 1024

/-- The route `POST /api/upload` as it is mounted, behind
`express.raw({ limit: '5mb', type: '*/*' })`.  Here `req.body` is the body as it
was sent.  A body longer than the limit makes the body parser fail with status
413 before the handler runs; the framework answers with that status and the
page `errorPage` (its text depends on the environment), and nothing else
happens.  Every other request reaches the handler with its body. -/
def postUpload (errorPage : String) (env : UploadEnv) (req : UploadReq) (s : Store) :
    Store × List Call × Response :=
  match req.body with
  | some sent =>
    if sent.length > rawLimit then (s, [], .send 413 errorPage) else apiUpload env req s
  | none => apiUpload env req s

/-! ## Basic facts about the collaborators -/

theorem rowsOf_upload (s : Store) (path : String) (body : Bytes) (ct : String)
    (fault : Option String) (token : String) :
    (s.upload path body ct fault).1.rowsOf token = s.rowsOf token := by
  unfold Store.upload
  split
  · rfl
  · split <;> rfl

theorem files_upload (s : Store) (path : String) (body : Bytes) (ct : String)
    (fault : Option String) :
    (s.upload path body ct fault).1.files = s.files := by
  unfold Store.upload
  split
  · rfl
  · split <;> rfl

theorem rowsOf_insert_of_mem (s : Store) (row : FileRow) (fault : Option String)
    (token : String) (h : s.rowsOf token ≠ []) :
    (s.insert row fault).1.rowsOf token = s.rowsOf token := by
  unfold Store.insert
  split
  · rfl
  · split
    · rfl
    · rename_i hany
      have hne : (row.id == token) = false := by
        cases hrow : (row.id == token) with
        | false => rfl
        | true =>
          exfalso
          apply hany
          obtain ⟨r, hr⟩ := List.exists_mem_of_ne_nil _ h
          have hr2 := List.mem_filter.mp hr
          have h1 : r.id = token := by simpa using hr2.2
          have h2 : row.id = token := by simpa using hrow
          exact List.any_eq_true.mpr ⟨r, hr2.1, by simp [h1, h2]⟩
      simp [Store.rowsOf, List.filter_append, hne]

/-- Marking rows used does not change their `id`. -/
theorem markUsed_id (t : String) (r : FileRow) :
    (if r.id == t then { r with used := true } else r).id = r.id := by
  split <;> rfl

theorem rowsOf_updateUsed (s : Store) (t : String) (fault : Bool) (token : String) :
    (s.updateUsed t fault).rowsOf token =
      (s.rowsOf token).map
        (fun r => if t = token ∧ fault = false then { r with used := true } else r) := by
  unfold Store.updateUsed
  cases fault with
  | true => simp
  | false =>
    simp only [Store.rowsOf, Bool.false_eq_true, if_false, and_true, List.filter_map]
    have hp : ((fun r : FileRow => r.id == token) ∘
        fun r : FileRow => if r.id == t then { r with used := true } else r) =
        fun r : FileRow => r.id == token := by
      funext r
      simp only [Function.comp, markUsed_id]
    rw [hp]
    apply List.map_congr_left
    intro r hr
    have hid : r.id = token := by simpa using (List.mem_filter.mp hr).2
    by_cases ht : t = token
    · simp [hid, ht]
    · have : ¬ token = t := fun h => ht h.symm
      simp [hid, ht, this]

/-- A run of the upload handler that answers with a token: validation passed,
neither collaborator failed, the identifier was fresh in both, and the object and
the row were appended. -/
theorem apiUpload_token (env : UploadEnv) (req : UploadReq) (s : Store) (tok url : String)
    (h : (apiUpload env req s).2.2 = .json 200 [("token", tok), ("downloadUrl", url)]) :
    ∃ a, validate req = .ok a ∧ tok = env.nanoid ∧
      url = env.BASE_URL ++ "/download/" ++ env.nanoid ∧
      env.upFault = none ∧ env.dbFault = none ∧
      s.encrypted.any (fun o => o.path == env.nanoid ++ ".bin") = false ∧
      s.files.any (fun r => r.id == env.nanoid) = false ∧
      apiUpload env req s =
        (⟨s.files ++ [issuedRow env a], s.encrypted ++ [issuedObject env a]⟩,
          [.nanoid env.nanoid,
           .storageUpload (env.nanoid ++ ".bin") a.fileBuffer "application/octet-stream" true,
           .insert (issuedRow env a) true],
          .json 200 [("token", env.nanoid),
                     ("downloadUrl", env.BASE_URL ++ "/download/" ++ env.nanoid)]) := by
  cases hv : validate req with
  | error m => simp [apiUpload, hv] at h
  | ok a =>
    refine ⟨a, rfl, ?_⟩
    cases hu : env.upFault with
    | some e => simp [apiUpload, hv, Store.upload, hu] at h
    | none =>
      cases ho : s.encrypted.any (fun o => o.path == env.nanoid ++ ".bin") with
      | true => simp [apiUpload, hv, Store.upload, hu, ho] at h
      | false =>
        cases hd : env.dbFault with
        | some e => simp [apiUpload, hv, Store.upload, hu, ho, Store.insert, hd] at h
        | none =>
          cases hf : s.files.any (fun r => r.id == env.nanoid) with
          | true => simp [apiUpload, hv, Store.upload, hu, ho, Store.insert, hd, hf] at h
          | false =>
            simp [apiUpload, hv, Store.upload, hu, ho, Store.insert, hd, hf] at h
            obtain ⟨h1, h2⟩ := h
            subst h1 h2
            simp [apiUpload, hv, Store.upload, hu, ho, Store.insert, hd, hf, issuedRow,
              issuedObject]

theorem apiMeta_store (fault : Bool) (token : String) (s : Store) :
    (apiMeta fault token s).1 = s := by
  unfold apiMeta
  split <;> rfl

theorem rowsOf_apiUpload (env : UploadEnv) (req : UploadReq) (s : Store) (token : String)
    (h : s.rowsOf token ≠ []) :
    (apiUpload env req s).1.rowsOf token = s.rowsOf token := by
  cases hv : validate req with
  | error m => simp only [apiUpload, hv]
  | ok a =>
    have hup := rowsOf_upload s (env.nanoid ++ ".bin") a.fileBuffer "application/octet-stream"
      env.upFault token
    rcases hU : s.upload (env.nanoid ++ ".bin") a.fileBuffer "application/octet-stream"
      env.upFault with ⟨s1, _ | e⟩
    · rw [hU] at hup
      simp only at hup
      have hins := rowsOf_insert_of_mem s1
        ⟨env.nanoid, a.rawName, a.mime, a.fileBuffer.length, env.now + 24 * 3600 * 1000, false⟩
        env.dbFault token (by rw [hup]; exact h)
      rcases hI : s1.insert
        ⟨env.nanoid, a.rawName, a.mime, a.fileBuffer.length, env.now + 24 * 3600 * 1000, false⟩
        env.dbFault with ⟨s2, _ | e⟩
      · rw [hI] at hins
        simp only at hins
        simp only [apiUpload, hv, hU, hI, hins, hup]
      · rw [hI] at hins
        simp only at hins
        simp only [apiUpload, hv, hU, hI, hins, hup]
    · rw [hU] at hup
      simp only at hup
      simp only [apiUpload, hv, hU, hup]

/-- The download handler either leaves the store alone or runs the update. -/
theorem download_store (env : DownloadEnv) (token : String) (s : Store) :
    (download env token s).1 = s ∨
      (download env token s).1 = s.updateUsed token env.updateFault := by
  unfold download
  split
  · exact Or.inl rfl
  · split
    · exact Or.inl rfl
    · split
      · exact Or.inl rfl
      · split <;> exact Or.inr rfl

/-- Requests other than a download of `token` leave the rows of `token` alone. -/
theorem rowsOf_handle_other (r : Request) (s : Store) (token : String)
    (hr : ∀ e, r ≠ .download e token) (h : s.rowsOf token ≠ []) :
    (handle r s).1.rowsOf token = s.rowsOf token := by
  cases r with
  | meta fault t => simp [handle, apiMeta_store]
  | upload env req => exact rowsOf_apiUpload env req s token h
  | download env t =>
    have ht : ¬ t = token := fun h => hr env (by rw [h])
    rcases download_store env t s with h1 | h1
    · simp only [handle, h1]
    · simp only [handle, h1, rowsOf_updateUsed, ht, false_and, if_false, List.map_id']

/-- No request changes the rows of a token all of whose rows are used. -/
theorem rowsOf_handle_used (r : Request) (s : Store) (token : String)
    (hu : ∀ x ∈ s.rowsOf token, x.used = true) (h : s.rowsOf token ≠ []) :
    (handle r s).1.rowsOf token = s.rowsOf token := by
  cases r with
  | meta fault t => simp [handle, apiMeta_store]
  | upload env req => exact rowsOf_apiUpload env req s token h
  | download env t =>
    rcases download_store env t s with h1 | h1
    · simp only [handle, h1]
    · simp only [handle, h1, rowsOf_updateUsed]
      conv_rhs => rw [← List.map_id (s.rowsOf token)]
      apply List.map_congr_left
      intro x hx
      have := hu x hx
      split
      · cases x; simp_all
      · rfl

theorem rowsOf_serve_other (rs : List Request) (s : Store) (token : String)
    (hr : ∀ r ∈ rs, ∀ e, r ≠ .download e token) (h : s.rowsOf token ≠ []) :
    (serve rs s).rowsOf token = s.rowsOf token := by
  induction rs generalizing s with
  | nil => rfl
  | cons r rs ih =>
    have h1 := rowsOf_handle_other r s token (hr r (List.mem_cons_self _ _)) h
    simp only [serve]
    rw [ih (handle r s).1 (fun r' hr' => hr r' (List.mem_cons_of_mem _ hr')) (by rw [h1]; exact h),
      h1]

theorem rowsOf_serve_used (rs : List Request) (s : Store) (token : String)
    (hu : ∀ x ∈ s.rowsOf token, x.used = true) (h : s.rowsOf token ≠ []) :
    (serve rs s).rowsOf token = s.rowsOf token := by
  induction rs generalizing s with
  | nil => rfl
  | cons r rs ih =>
    have h1 := rowsOf_handle_used r s token hu h
    simp only [serve]
    rw [ih (handle r s).1 (by rw [h1]; exact hu) (by rw [h1]; exact h), h1]

/-! ## Facts about the string primitives -/

theorem isNameChar_eq_inAllowSet (c : Char) : isNameChar c = inAllowSet c := by
  rw [Bool.eq_iff_iff]
  simp only [isNameChar, inAllowSet, Char.isAlpha, Char.isUpper, Char.isLower, Char.isDigit,
    Bool.or_eq_true, Bool.and_eq_true, decide_eq_true_eq, beq_iff_eq, Char.le_def, ge_iff_le]
  have h1 : ('a' : Char).val = 97 := rfl
  have h2 : ('z' : Char).val = 122 := rfl
  have h3 : ('A' : Char).val = 65 := rfl
  have h4 : ('Z' : Char).val = 90 := rfl
  have h5 : ('0' : Char).val = 48 := rfl
  have h6 : ('9' : Char).val = 57 := rfl
  rw [h1, h2, h3, h4, h5, h6]
  tauto

theorem hasIllegalChar_eq (s : String) :
    hasIllegalChar s = s.data.any (fun c => !inAllowSet c) := by
  simp only [hasIllegalChar, isNameChar_eq_inAllowSet]

theorem splitDot_ne_nil (cs : List Char) : splitDot cs ≠ [] := by
  cases cs with
  | nil => simp [splitDot]
  | cons c cs =>
    simp only [splitDot]
    split
    · simp
    · split <;> simp

theorem splitDot_no_dot (cs : List Char) (h : '.' ∉ cs) : splitDot cs = [cs] := by
  induction cs with
  | nil => rfl
  | cons c cs ih =>
    have hc : ¬ c = '.' := fun e => h (by simp [e])
    have hcs : '.' ∉ cs := fun e => h (List.mem_cons_of_mem _ e)
    simp [splitDot, hc, ih hcs]

theorem splitDot_cons_dot (cs : List Char) : splitDot ('.' :: cs) = [] :: splitDot cs := by
  simp [splitDot]

theorem splitDot_cons_other (c : Char) (cs seg : List Char) (segs : List (List Char))
    (hc : ¬ c = '.') (h : splitDot cs = seg :: segs) :
    splitDot (c :: cs) = (c :: seg) :: segs := by
  simp [splitDot, hc, h]

/-- A list with a period splits into at least two segments. -/
theorem splitDot_two (pre suf : List Char) :
    ∃ a b rest, splitDot (pre ++ '.' :: suf) = a :: b :: rest := by
  induction pre with
  | nil =>
    cases hsp : splitDot suf with
    | nil => exact absurd hsp (splitDot_ne_nil _)
    | cons seg segs => exact ⟨[], seg, segs, by rw [List.nil_append, splitDot_cons_dot, hsp]⟩
  | cons c pre ih =>
    obtain ⟨a, b, rest, he⟩ := ih
    have hcons : (c :: pre) ++ '.' :: suf = c :: (pre ++ '.' :: suf) := rfl
    by_cases hc : c = '.'
    · exact ⟨[], a, b :: rest, by rw [hcons, hc, splitDot_cons_dot, he]⟩
    · exact ⟨c :: a, b, rest, by rw [hcons, splitDot_cons_other c _ a (b :: rest) hc he]⟩

/-- The last segment of `pre ++ '.' :: suf` is `suf` when `suf` has no period. -/
theorem splitDot_getLastD (pre suf : List Char) (h : '.' ∉ suf) :
    (splitDot (pre ++ '.' :: suf)).getLastD [] = suf := by
  induction pre with
  | nil =>
    rw [List.nil_append, splitDot_cons_dot, splitDot_no_dot suf h]
    rfl
  | cons c pre ih =>
    obtain ⟨a, b, rest, he⟩ := splitDot_two pre suf
    have hcons : (c :: pre) ++ '.' :: suf = c :: (pre ++ '.' :: suf) := rfl
    rw [he] at ih
    by_cases hc : c = '.'
    · rw [hcons, hc, splitDot_cons_dot, he]
      simpa [List.getLastD] using ih
    · rw [hcons, splitDot_cons_other c _ a (b :: rest) hc he]
      simpa [List.getLastD] using ih

/-- A list with a period splits at its last period. -/
theorem exists_last_dot (cs : List Char) (h : '.' ∈ cs) :
    ∃ pre suf, cs = pre ++ '.' :: suf ∧ '.' ∉ suf := by
  induction cs with
  | nil => simp at h
  | cons c cs ih =>
    by_cases hcs : '.' ∈ cs
    · obtain ⟨pre, suf, he, hs⟩ := ih hcs
      exact ⟨c :: pre, suf, by rw [he]; rfl, hs⟩
    · have hc : c = '.' := by
        rcases List.mem_cons.mp h with h1 | h1
        · exact h1.symm
        · exact absurd h1 hcs
      exact ⟨[], cs, by rw [hc]; rfl, hcs⟩

theorem takeWhile_no_dot (suf rest : List Char) (h : '.' ∉ suf) :
    (suf ++ '.' :: rest).takeWhile (fun c => c != '.') = suf := by
  induction suf with
  | nil => simp
  | cons c suf ih =>
    have hc : ¬ c = '.' := fun e => h (by simp [e])
    have hs : '.' ∉ suf := fun e => h (List.mem_cons_of_mem _ e)
    have hb : (c != '.') = true := by simp [hc]
    simp [List.takeWhile_cons, hb, ih hs]

theorem takeWhile_all_no_dot (cs : List Char) (h : '.' ∉ cs) :
    cs.takeWhile (fun c => c != '.') = cs := by
  induction cs with
  | nil => rfl
  | cons c cs ih =>
    have hc : ¬ c = '.' := fun e => h (by simp [e])
    have hs : '.' ∉ cs := fun e => h (List.mem_cons_of_mem _ e)
    have hb : (c != '.') = true := by simp [hc]
    simp [List.takeWhile_cons, hb, ih hs]

/-- The expression `split('.').pop()` is the substring after the last period. -/
theorem lastSegment_eq_afterLastDot (s : String) : lastSegment s = afterLastDot s := by
  unfold lastSegment afterLastDot
  congr 1
  by_cases h : '.' ∈ s.data
  · obtain ⟨pre, suf, he, hs⟩ := exists_last_dot s.data h
    rw [he, splitDot_getLastD pre suf hs]
    have hr : (pre ++ '.' :: suf).reverse = suf.reverse ++ '.' :: pre.reverse := by simp
    rw [hr, takeWhile_no_dot suf.reverse pre.reverse (by simpa using hs)]
    simp
  · rw [splitDot_no_dot s.data h]
    rw [takeWhile_all_no_dot s.data.reverse (by simpa using h)]
    simp [List.getLastD]

/-! ## Facts about the validation prefix -/

theorem mimeAllowed_eq_none (m : Option String) :
    mimeAllowed m = none ↔
      m ∉ [some "image/png", some "image/jpeg", some "application/pdf"] := by
  cases m with
  | none => simp [mimeAllowed]
  | some x => simp [mimeAllowed, ALLOWED_MIME]

theorem mimeAllowed_eq_some (m : Option String) (x : String) :
    mimeAllowed m = some x ↔
      m = some x ∧ m ∈ [some "image/png", some "image/jpeg", some "application/pdf"] := by
  cases m with
  | none => simp [mimeAllowed]
  | some y =>
    simp only [mimeAllowed, ALLOWED_MIME]
    split
    · rename_i h
      simp only [List.mem_cons, List.mem_singleton, List.not_mem_nil, or_false] at h
      simp only [Option.some.injEq, List.mem_cons, List.mem_singleton, List.not_mem_nil,
        or_false]
      tauto
    · rename_i h
      simp only [List.mem_cons, List.mem_singleton, List.not_mem_nil, or_false] at h
      simp only [Option.some.injEq, List.mem_cons, List.mem_singleton, List.not_mem_nil,
        or_false, false_iff]
      tauto

/-- The validation prefix, one equation per outcome. -/
theorem validate_cases (req : UploadReq) :
    (req.body.getD [] = [] ∧ validate req = .error "file kosong") ∨
    (∃ buf, req.body = some buf ∧ buf ≠ [] ∧
      ((buf.length > MAX_SIZE ∧ validate req = .error "file > 5\u202fMB") ∨
       (buf.length ≤ MAX_SIZE ∧
        ((mimeAllowed req.xMime = none ∧ validate req = .error "MIME tidak valid") ∨
         (∃ mime, mimeAllowed req.xMime = some mime ∧
           ((declaredName req = none ∧ validate req = .error uriMalformed) ∨
            (∃ name, declaredName req = some name ∧
              ((name = "" ∧ validate req = .error "nama file wajib") ∨
               (name ≠ "" ∧
                ((hasIllegalChar name = true ∧ validate req = .error "nama file ilegal") ∨
                 (hasIllegalChar name = false ∧
                  ((toLowerCase (lastSegment name) ∉ ALLOWED_EXT ∧
                      validate req = .error "ekstensi dilarang") ∨
                   (toLowerCase (lastSegment name) ∈ ALLOWED_EXT ∧
                      validate req = .ok ⟨buf, mime, name⟩))))))))))))) := by
  cases hb : req.body with
  | none => exact Or.inl ⟨rfl, by simp [validate, hb]⟩
  | some buf =>
    by_cases h0 : buf.length = 0
    · exact Or.inl ⟨by simpa using h0, by simp [validate, hb, h0]⟩
    · refine Or.inr ⟨buf, rfl, by simpa using h0, ?_⟩
      by_cases h1 : buf.length > MAX_SIZE
      · exact Or.inl ⟨h1, by simp [validate, hb, h0, h1]⟩
      · refine Or.inr ⟨by omega, ?_⟩
        cases hm : mimeAllowed req.xMime with
        | none => exact Or.inl ⟨rfl, by simp [validate, hb, h0, h1, hm]⟩
        | some mime =>
          refine Or.inr ⟨mime, rfl, ?_⟩
          cases hd : decodeURIComponent (req.xFilename.getD "") with
          | none =>
            exact Or.inl ⟨by simp [declaredName, hd], by simp [validate, hb, h0, h1, hm, hd]⟩
          | some decoded =>
            refine Or.inr ⟨jsTrim decoded, by simp [declaredName, hd], ?_⟩
            by_cases hn : jsTrim decoded = ""
            · exact Or.inl ⟨hn, by simp [validate, hb, h0, h1, hm, hd, hn]⟩
            · refine Or.inr ⟨hn, ?_⟩
              cases hi : hasIllegalChar (jsTrim decoded) with
              | true => exact Or.inl ⟨rfl, by simp [validate, hb, h0, h1, hm, hd, hn, hi]⟩
              | false =>
                refine Or.inr ⟨rfl, ?_⟩
                by_cases he : toLowerCase (lastSegment (jsTrim decoded)) ∈ ALLOWED_EXT
                · exact Or.inr ⟨he, by simp [validate, hb, h0, h1, hm, hd, hn, hi, he]⟩
                · exact Or.inl ⟨he, by simp [validate, hb, h0, h1, hm, hd, hn, hi, he]⟩

/-- Every reason the validation prefix reports is a non-empty message. -/
theorem validate_error_ne_empty (req : UploadReq) (message : String)
    (h : validate req = .error message) : message ≠ "" := by
  rcases validate_cases req with ⟨-, hv⟩ | ⟨buf, -, -, ⟨-, hv⟩ | ⟨-, ⟨-, hv⟩ | ⟨mime, -,
    ⟨-, hv⟩ | ⟨name, -, ⟨-, hv⟩ | ⟨-, ⟨-, hv⟩ | ⟨-, ⟨-, hv⟩ | ⟨-, hv⟩⟩⟩⟩⟩⟩⟩ <;>
  · rw [hv] at h
    first
      | (injection h with h; rw [← h]; decide)
      | exact Except.noConfusion h

/-- A payload longer than the ceiling is rejected by the size check. -/
theorem validate_too_long (buf : Bytes) (m f : Option String) (h : buf.length > MAX_SIZE) :
    validate ⟨some buf, m, f⟩ = .error "file > 5\u202fMB" := by
  have h0 : ¬ buf.length = 0 := by omega
  simp only [validate, h0, h, if_true, if_false]

/-- What the accepted values are made of: the body, the MIME header, and the
file name header decoded and trimmed. -/
theorem validate_ok_fields (req : UploadReq) (a : Accepted) (h : validate req = .ok a) :
    req.body = some a.fileBuffer ∧ req.xMime = some a.mime ∧
      ∃ decoded, decodeURIComponent (req.xFilename.getD "") = some decoded ∧
        a.rawName = jsTrim decoded := by
  rcases validate_cases req with ⟨-, hv⟩ | ⟨buf, hb, -, ⟨-, hv⟩ | ⟨-, ⟨-, hv⟩ | ⟨mime, hm,
    ⟨-, hv⟩ | ⟨name, hd, ⟨-, hv⟩ | ⟨-, ⟨-, hv⟩ | ⟨-, ⟨-, hv⟩ | ⟨-, hv⟩⟩⟩⟩⟩⟩⟩
  all_goals rw [hv] at h
  all_goals first | exact Except.noConfusion h | skip
  injection h with h
  subst h
  refine ⟨hb, ((mimeAllowed_eq_some req.xMime mime).mp hm).1, ?_⟩
  obtain ⟨dec, hdec, hname⟩ : ∃ dec, decodeURIComponent (req.xFilename.getD "") = some dec ∧
      jsTrim dec = name := by
    simpa [declaredName] using hd
  exact ⟨dec, hdec, hname.symm⟩

/-- A request that passes the first five rules is decided by the extension alone. -/
theorem validate_rule6 (req : UploadReq) (buf : Bytes) (mime name : String)
    (hb : req.body = some buf) (hne : buf ≠ []) (hsz : buf.length ≤ MAX_SIZE)
    (hm : mimeAllowed req.xMime = some mime) (hd : declaredName req = some name)
    (hn : name ≠ "") (hi : hasIllegalChar name = false) :
    validate req =
      if toLowerCase (lastSegment name) ∈ ALLOWED_EXT then .ok ⟨buf, mime, name⟩
      else .error "ekstensi dilarang" := by
  obtain ⟨dec, hdec, hname⟩ : ∃ dec, decodeURIComponent (req.xFilename.getD "") = some dec ∧
      jsTrim dec = name := by
    simpa [declaredName] using hd
  subst hname
  have h0 : ¬ buf.length = 0 := by simpa using hne
  have h1 : ¬ buf.length > MAX_SIZE := by omega
  simp only [validate, hb, h0, h1, hm, hdec, hn, hi, if_false, Bool.false_eq_true]

/-- An accepted name is the declared name and has an allowed extension. -/
theorem validate_ok_ext (req : UploadReq) (a : Accepted) (h : validate req = .ok a) :
    declaredName req = some a.rawName ∧ toLowerCase (lastSegment a.rawName) ∈ ALLOWED_EXT := by
  rcases validate_cases req with ⟨-, hv⟩ | ⟨buf, hb, -, ⟨-, hv⟩ | ⟨-, ⟨-, hv⟩ | ⟨mime, hm,
    ⟨-, hv⟩ | ⟨name, hd, ⟨-, hv⟩ | ⟨-, ⟨-, hv⟩ | ⟨-, ⟨-, hv⟩ | ⟨he, hv⟩⟩⟩⟩⟩⟩⟩
  all_goals rw [hv] at h
  all_goals first | exact Except.noConfusion h | skip
  injection h with h
  subst h
  exact ⟨hd, he⟩

/-! ## The rules of the specification, read on the code -/

theorem firstFailure_cons_true (r : Rule) (rs : List Rule) (req : UploadReq)
    (h : r.fails req = true) : firstFailure (r :: rs) req = some r.reason := by
  simp [firstFailure, List.find?, h]

theorem firstFailure_cons_false (r : Rule) (rs : List Rule) (req : UploadReq)
    (h : ¬ r.fails req = true) : firstFailure (r :: rs) req = firstFailure rs req := by
  simp [firstFailure, List.find?, h]

theorem ruleNonEmpty_fails (req : UploadReq) :
    ruleNonEmpty.fails req = true ↔ req.body.getD [] = [] := by
  simp [ruleNonEmpty]

theorem ruleSize_fails (req : UploadReq) :
    ruleSize.fails req = true ↔ (req.body.getD []).length > MAX_SIZE := by
  simp [ruleSize, MAX_SIZE]

theorem ruleMime_fails (req : UploadReq) :
    ruleMime.fails req = true ↔ mimeAllowed req.xMime = none := by
  rw [mimeAllowed_eq_none]
  simp [ruleMime]

theorem ruleDecodable_fails (req : UploadReq) :
    ruleDecodable.fails req = true ↔ declaredName req = none := by
  simp [ruleDecodable]

theorem ruleNamePresent_fails (req : UploadReq) :
    ruleNamePresent.fails req = true ↔ declaredName req = some "" := by
  simp [ruleNamePresent]

theorem ruleNameChars_fails (req : UploadReq) (name : String)
    (h : declaredName req = some name) :
    ruleNameChars.fails req = hasIllegalChar name := by
  simp [ruleNameChars, h, hasIllegalChar_eq]

theorem ruleExtension_fails (req : UploadReq) (name : String)
    (h : declaredName req = some name) :
    ruleExtension.fails req = true ↔ toLowerCase (lastSegment name) ∉ ALLOWED_EXT := by
  simp [ruleExtension, h, lastSegment_eq_afterLastDot, ALLOWED_EXT]

/-! ## Runs of the upload handler -/

/-- The put either fails and changes nothing, or appends the object. -/
theorem upload_cases (s : Store) (path : String) (body : Bytes) (ct : String)
    (fault : Option String) :
    (∃ e, s.upload path body ct fault = (s, some e)) ∨
      s.upload path body ct fault = (⟨s.files, s.encrypted ++ [⟨path, body, ct⟩]⟩, none) := by
  unfold Store.upload
  cases fault with
  | some e => exact Or.inl ⟨e, rfl⟩
  | none =>
    by_cases h : s.encrypted.any (fun o => o.path == path) = true
    · exact Or.inl ⟨resourceExists, by simp only [h, if_true]⟩
    · exact Or.inr (by simp only [h, if_false, Bool.false_eq_true])

/-- The insert either fails and changes nothing, or appends the row. -/
theorem insert_cases (s : Store) (row : FileRow) (fault : Option String) :
    (∃ e, s.insert row fault = (s, some e)) ∨
      s.insert row fault = (⟨s.files ++ [row], s.encrypted⟩, none) := by
  unfold Store.insert
  cases fault with
  | some e => exact Or.inl ⟨e, rfl⟩
  | none =>
    by_cases h : s.files.any (fun r => r.id == row.id) = true
    · exact Or.inl ⟨duplicateKey, by simp only [h, if_true]⟩
    · exact Or.inr (by simp only [h, if_false, Bool.false_eq_true])

/-- The four ways a run of the upload handler can go. -/
theorem apiUpload_cases (env : UploadEnv) (req : UploadReq) (s : Store) :
    (∃ m, validate req = .error m ∧
      apiUpload env req s = (s, [], .json 400 [("error", orUploadFailed m)])) ∨
    (∃ a, validate req = .ok a ∧
      ((∃ e, apiUpload env req s =
          (s, [.nanoid env.nanoid,
               .storageUpload (env.nanoid ++ ".bin") a.fileBuffer "application/octet-stream" false],
            .json 400 [("error", orUploadFailed e)])) ∨
       (∃ e, apiUpload env req s =
          (⟨s.files, s.encrypted ++ [issuedObject env a]⟩,
            [.nanoid env.nanoid,
             .storageUpload (env.nanoid ++ ".bin") a.fileBuffer "application/octet-stream" true,
             .insert (issuedRow env a) false],
            .json 400 [("error", orUploadFailed e)])) ∨
       apiUpload env req s =
          (⟨s.files ++ [issuedRow env a], s.encrypted ++ [issuedObject env a]⟩,
            [.nanoid env.nanoid,
             .storageUpload (env.nanoid ++ ".bin") a.fileBuffer "application/octet-stream" true,
             .insert (issuedRow env a) true],
            .json 200 [("token", env.nanoid),
                       ("downloadUrl", env.BASE_URL ++ "/download/" ++ env.nanoid)]))) := by
  cases hv : validate req with
  | error m => exact Or.inl ⟨m, rfl, by simp only [apiUpload, hv]⟩
  | ok a =>
    refine Or.inr ⟨a, rfl, ?_⟩
    rcases upload_cases s (env.nanoid ++ ".bin") a.fileBuffer "application/octet-stream"
      env.upFault with ⟨e, hu⟩ | hu
    · exact Or.inl ⟨e, by simp only [apiUpload, hv, hu]⟩
    · rcases insert_cases ⟨s.files, s.encrypted ++
          [⟨env.nanoid ++ ".bin", a.fileBuffer, "application/octet-stream"⟩]⟩
        ⟨env.nanoid, a.rawName, a.mime, a.fileBuffer.length, env.now + 24 * 3600 * 1000, false⟩
        env.dbFault with ⟨e, hi⟩ | hi
      · exact Or.inr (Or.inl ⟨e, by simp only [apiUpload, hv, hu, hi, issuedObject, issuedRow]⟩)
      · exact Or.inr (Or.inr (by simp only [apiUpload, hv, hu, hi, issuedObject, issuedRow]))

theorem backed_updateUsed (s : Store) (token : String) (fault : Bool) (h : Backed s) :
    Backed (s.updateUsed token fault) := by
  unfold Store.updateUsed
  cases fault with
  | true => exact h
  | false =>
    intro r hr
    simp only [Bool.false_eq_true, if_false, List.mem_map] at hr
    obtain ⟨r0, hr0, he⟩ := hr
    obtain ⟨o, ho, hp⟩ := h r0 hr0
    refine ⟨o, ho, ?_⟩
    rw [hp, ← he, markUsed_id]

theorem backed_handle (r : Request) (s : Store) (h : Backed s) : Backed (handle r s).1 := by
  cases r with
  | meta fault t => simpa [handle, apiMeta_store] using h
  | download env t =>
    rcases download_store env t s with h1 | h1
    · simpa only [handle, h1] using h
    · simpa only [handle, h1] using backed_updateUsed s t env.updateFault h
  | upload env req =>
    simp only [handle]
    rcases apiUpload_cases env req s with ⟨m, -, he⟩ | ⟨a, -, ⟨e, he⟩ | ⟨e, he⟩ | he⟩
    · rw [he]; exact h
    · rw [he]; exact h
    · rw [he]
      intro r hr
      obtain ⟨o, ho, hp⟩ := h r hr
      exact ⟨o, List.mem_append_left _ ho, hp⟩
    · rw [he]
      intro r hr
      rcases List.mem_append.mp hr with hr | hr
      · obtain ⟨o, ho, hp⟩ := h r hr
        exact ⟨o, List.mem_append_left _ ho, hp⟩
      · have : r = issuedRow env a := by simpa using hr
        exact ⟨issuedObject env a, by simp, by rw [this]; rfl⟩

theorem backed_serve (rs : List Request) (s : Store) (h : Backed s) : Backed (serve rs s) := by
  induction rs generalizing s with
  | nil => exact h
  | cons r rs ih => exact ih _ (backed_handle r s h)

theorem encrypted_updateUsed (s : Store) (token : String) (fault : Bool) :
    (s.updateUsed token fault).encrypted = s.encrypted := by
  unfold Store.updateUsed
  split <;> rfl

/-- No request removes or replaces the object found at a path. -/
theorem find_handle (r : Request) (s : Store) (path : String) (o : StoredObject)
    (h : s.encrypted.find? (fun x => x.path == path) = some o) :
    (handle r s).1.encrypted.find? (fun x => x.path == path) = some o := by
  cases r with
  | meta fault t => simpa [handle, apiMeta_store] using h
  | download env t =>
    rcases download_store env t s with h1 | h1
    · simpa only [handle, h1] using h
    · simpa only [handle, h1, encrypted_updateUsed] using h
  | upload env req =>
    simp only [handle]
    rcases apiUpload_cases env req s with ⟨m, -, he⟩ | ⟨a, -, ⟨e, he⟩ | ⟨e, he⟩ | he⟩
    · rw [he]; exact h
    · rw [he]; exact h
    · rw [he]; simp only [List.find?_append, h]; rfl
    · rw [he]; simp only [List.find?_append, h]; rfl

theorem find_serve (rs : List Request) (s : Store) (path : String) (o : StoredObject)
    (h : s.encrypted.find? (fun x => x.path == path) = some o) :
    (serve rs s).encrypted.find? (fun x => x.path == path) = some o := by
  induction rs generalizing s with
  | nil => exact h
  | cons r rs ih => exact ih _ (find_handle r s path o h)

/-- After an upload answered with a token, and requests that are no download of
it, the token has exactly the issued row and the issued object is found at
its path. -/
theorem after_issue (env : UploadEnv) (req : UploadReq) (s : Store) (tok url : String)
    (hIssue : (apiUpload env req s).2.2 = .json 200 [("token", tok), ("downloadUrl", url)])
    (between : List Request) (hBetween : ∀ r ∈ between, ∀ e, r ≠ .download e tok) :
    ∃ a, validate req = .ok a ∧ tok = env.nanoid ∧
      (apiUpload env req s).1.rowsOf tok = [issuedRow env a] ∧
      (serve between (apiUpload env req s).1).rowsOf tok = [issuedRow env a] ∧
      (apiUpload env req s).1.encrypted.find? (fun x => x.path == tok ++ ".bin")
        = some (issuedObject env a) ∧
      (serve between (apiUpload env req s).1).encrypted.find? (fun x => x.path == tok ++ ".bin")
        = some (issuedObject env a) ∧
      (apiUpload env req s).2.1 =
        [.nanoid tok, .storageUpload (tok ++ ".bin") a.fileBuffer "application/octet-stream" true,
         .insert (issuedRow env a) true] := by
  obtain ⟨a, hv, htok, -, -, -, hfreshObj, hfresh, hrun⟩ :=
    apiUpload_token env req s tok url hIssue
  subst htok
  have hrows0 : (apiUpload env req s).1.rowsOf env.nanoid = [issuedRow env a] := by
    rw [hrun]
    have hnone : s.files.filter (fun r => r.id == env.nanoid) = [] := by
      rw [List.filter_eq_nil_iff]
      intro r hr hid
      have : s.files.any (fun r => r.id == env.nanoid) = true :=
        List.any_eq_true.mpr ⟨r, hr, hid⟩
      rw [hfresh] at this
      exact Bool.noConfusion this
    simp [Store.rowsOf, List.filter_append, hnone, issuedRow]
  have hfind0 : (apiUpload env req s).1.encrypted.find?
      (fun x => x.path == env.nanoid ++ ".bin") = some (issuedObject env a) := by
    rw [hrun]
    have hnone : s.encrypted.find? (fun x => x.path == env.nanoid ++ ".bin") = none := by
      rw [List.find?_eq_none]
      intro o ho hp
      have : s.encrypted.any (fun o => o.path == env.nanoid ++ ".bin") = true :=
        List.any_eq_true.mpr ⟨o, ho, hp⟩
      rw [hfreshObj] at this
      exact Bool.noConfusion this
    simp [List.find?_append, hnone, issuedObject]
  refine ⟨a, hv, rfl, hrows0, ?_, hfind0, find_serve between _ _ _ hfind0, ?_⟩
  · rw [rowsOf_serve_other between _ env.nanoid hBetween (by rw [hrows0]; simp), hrows0]
  · rw [hrun]

/-- Every request leaves the rows of a token as they are or marks them used. -/
theorem rowsOf_handle_any (r : Request) (s : Store) (token : String)
    (h : s.rowsOf token ≠ []) :
    (handle r s).1.rowsOf token = s.rowsOf token ∨
      (handle r s).1.rowsOf token =
        (s.rowsOf token).map (fun x => { x with used := true }) := by
  cases r with
  | meta fault t => exact Or.inl (by simp [handle, apiMeta_store])
  | upload env req => exact Or.inl (rowsOf_apiUpload env req s token h)
  | download env t =>
    rcases download_store env t s with h1 | h1
    · exact Or.inl (by simp only [handle, h1])
    · by_cases hc : t = token ∧ env.updateFault = false
      · obtain ⟨ht, hf⟩ := hc
        subst ht
        refine Or.inr ?_
        show (download env t s).1.rowsOf t = _
        rw [h1, rowsOf_updateUsed, hf]
        simp
      · exact Or.inl (by simp only [handle, h1, rowsOf_updateUsed, hc, if_false, List.map_id'])

/-- Requests change nothing of the single row of a token but its `used` flag. -/
theorem rowsOf_serve_any (rs : List Request) (s : Store) (token : String) (row : FileRow)
    (h : s.rowsOf token = [row]) :
    ∃ u, (serve rs s).rowsOf token = [{ row with used := u }] := by
  induction rs generalizing s row with
  | nil => exact ⟨row.used, by simpa [serve] using h⟩
  | cons r rs ih =>
    rcases rowsOf_handle_any r s token (by rw [h]; simp) with h1 | h1
    · rw [h] at h1
      exact ih _ row h1
    · rw [h] at h1
      obtain ⟨u, hu⟩ := ih _ { row with used := true } h1
      exact ⟨u, hu⟩

/-- The meta handler on a token with a single row, when the query is answered. -/
theorem apiMeta_found (token : String) (s : Store) (row : FileRow)
    (h : s.rowsOf token = [row]) :
    apiMeta false token s =
      (s, [.select "original_name, mime" token true],
        .json 200 [("original_name", row.original_name), ("mime", row.mime)]) := by
  simp [apiMeta, Store.selectSingle, h]

/-- The meta handler on a token without a row. -/
theorem apiMeta_missing (fault : Bool) (token : String) (s : Store)
    (h : s.rowsOf token = []) :
    apiMeta fault token s =
      (s, [.select "original_name, mime" token false],
        .json 404 [("error", "metadata tidak ditemukan")]) := by
  cases fault <;> simp [apiMeta, Store.selectSingle, h]

/-- A request rejected by the validation: nothing happens and the reason is sent. -/
theorem apiUpload_rejected (env : UploadEnv) (req : UploadReq) (s : Store) (message : String)
    (h : validate req = .error message) :
    apiUpload env req s = (s, [], .json 400 [("error", message)]) := by
  have hne := validate_error_ne_empty req message h
  simp [apiUpload, h, orUploadFailed, hne]

/-- A body longer than the limit never reaches the handler. -/
theorem postUpload_too_long (errorPage : String) (env : UploadEnv) (sent : Bytes)
    (m f : Option String) (s : Store) (h : sent.length > rawLimit) :
    postUpload errorPage env ⟨some sent, m, f⟩ s = (s, [], .send 413 errorPage) := by
  simp only [postUpload, h, if_true]

/-- A body within the limit that the validation rejects is answered by the handler. -/
theorem postUpload_rejected (errorPage : String) (env : UploadEnv) (req : UploadReq)
    (sent : Bytes) (s : Store) (message : String) (hb : req.body = some sent)
    (hlen : sent.length ≤ rawLimit) (h : validate req = .error message) :
    postUpload errorPage env req s = (s, [], .json 400 [("error", message)]) := by
  have hn : ¬ sent.length > rawLimit := by omega
  simp only [postUpload, hb, hn, if_false]
  exact apiUpload_rejected env req s message h

/-- The size check of the validation never fires on a body within the limit of
the body parser. -/
theorem size_check_unreachable (req : UploadReq) (sent : Bytes) (hb : req.body = some sent)
    (hlen : sent.length ≤ rawLimit) : validate req ≠ .error "file > 5\u202fMB" := by
  intro h
  rcases validate_cases req with ⟨-, hv⟩ | ⟨buf, hb2, -, ⟨h1, hv⟩ | ⟨-, ⟨-, hv⟩ | ⟨mime, -,
    ⟨-, hv⟩ | ⟨name, -, ⟨-, hv⟩ | ⟨-, ⟨-, hv⟩ | ⟨-, ⟨-, hv⟩ | ⟨-, hv⟩⟩⟩⟩⟩⟩⟩
  case inr.intro.intro.intro.inl.intro =>
    rw [hb] at hb2
    injection hb2 with hb2
    subst hb2
    unfold MAX_SIZE at h1
    unfold rawLimit at hlen
    omega
  all_goals
    rw [hv] at h
    first
      | exact Except.noConfusion h
      | (injection h with h; revert h; decide)

/-! ## Runs of the download handler -/

theorem selectSingle_of_rows (s : Store) (token : String) (row : FileRow)
    (h : s.rowsOf token = [row]) : s.selectSingle token false = some row := by
  simp [Store.selectSingle, h]

/-- The download handler on a found row that is unused and not past its expiry,
when no collaborator fails. -/
theorem download_grant (d : DownloadEnv) (token : String) (s : Store) (row : FileRow)
    (hsel : s.selectSingle token d.selectFault = some row)
    (hused : row.used = false) (hexp : ¬ row.expires_at < d.now) (hsign : d.signFault = false) :
    download d token s =
      (s.updateUsed token d.updateFault,
        [.select "*" token true, .update token (!d.updateFault),
         .createSignedUrl (token ++ ".bin") 60 true],
        .redirect ⟨token ++ ".bin", 60⟩) := by
  simp [download, hsel, hused, hexp, createSignedUrl, hsign]

/-- The download handler on a found row that is already used. -/
theorem download_used (d : DownloadEnv) (token : String) (s : Store) (row : FileRow)
    (hsel : s.selectSingle token d.selectFault = some row) (hused : row.used = true) :
    download d token s = (s, [.select "*" token true], .send 404 "token sudah dipakai") := by
  simp [download, hsel, hused]

/-- The download handler when the query fails or finds no single row. -/
theorem download_missing (d : DownloadEnv) (token : String) (s : Store)
    (hsel : s.selectSingle token d.selectFault = none) :
    download d token s = (s, [.select "*" token false], .send 404 "token tidak ditemukan") := by
  simp [download, hsel]

/-- A row answered by the query is the only row of the token. -/
theorem rows_of_selectSingle (s : Store) (token : String) (fault : Bool) (row : FileRow)
    (h : s.selectSingle token fault = some row) : s.rowsOf token = [row] := by
  unfold Store.selectSingle at h
  split at h
  · exact Option.noConfusion h
  · split at h
    · rename_i r hr
      rw [hr]
      injection h with h
      rw [h]
    · exact Option.noConfusion h

/-- The download handler when the signed URL comes back without data. -/
theorem download_unsigned (d : DownloadEnv) (token : String) (s : Store) (row : FileRow)
    (hsel : s.selectSingle token d.selectFault = some row)
    (hused : row.used = false) (hexp : ¬ row.expires_at < d.now) (hsign : d.signFault = true) :
    download d token s =
      (s.updateUsed token d.updateFault,
        [.select "*" token true, .update token (!d.updateFault),
         .createSignedUrl (token ++ ".bin") 60 false],
        .send 404 nullSigned) := by
  simp [download, hsel, hused, hexp, createSignedUrl, hsign]

/-- The download handler on a found, unused row past its expiry. -/
theorem download_expired (d : DownloadEnv) (token : String) (s : Store) (row : FileRow)
    (hsel : s.selectSingle token d.selectFault = some row)
    (hused : row.used = false) (hexp : row.expires_at < d.now) :
    download d token s = (s, [.select "*" token true], .send 404 "token kedaluwarsa") := by
  simp [download, hsel, hused, hexp]

/-- The five ways a run of the download handler can go. -/
theorem download_cases (d : DownloadEnv) (token : String) (s : Store) :
    download d token s = (s, [.select "*" token false], .send 404 "token tidak ditemukan") ∨
    download d token s = (s, [.select "*" token true], .send 404 "token sudah dipakai") ∨
    download d token s = (s, [.select "*" token true], .send 404 "token kedaluwarsa") ∨
    download d token s =
      (s.updateUsed token d.updateFault,
        [.select "*" token true, .update token (!d.updateFault),
         .createSignedUrl (token ++ ".bin") 60 false],
        .send 404 nullSigned) ∨
    download d token s =
      (s.updateUsed token d.updateFault,
        [.select "*" token true, .update token (!d.updateFault),
         .createSignedUrl (token ++ ".bin") 60 true],
        .redirect ⟨token ++ ".bin", 60⟩) := by
  cases hsel : s.selectSingle token d.selectFault with
  | none => exact Or.inl (download_missing d token s hsel)
  | some row =>
    cases hu : row.used with
    | true => exact Or.inr (Or.inl (download_used d token s row hsel hu))
    | false =>
      by_cases he : row.expires_at < d.now
      · exact Or.inr (Or.inr (Or.inl (download_expired d token s row hsel hu he)))
      · cases hs : d.signFault with
        | true =>
          exact Or.inr (Or.inr (Or.inr (Or.inl (download_unsigned d token s row hsel hu he hs))))
        | false =>
          exact Or.inr (Or.inr (Or.inr (Or.inr (download_grant d token s row hsel hu he hs))))

/-- A run scheduled alone does what the handler does. -/
theorem exec_alone (d : DownloadEnv) (token : String) (s : Store) :
    Sys.exec [0, 0, 0] ⟨s, [⟨d, token, .start⟩], []⟩ =
      ⟨(download d token s).1, [⟨d, token, .done (download d token s).2.2⟩],
        (download d token s).2.1⟩ := by
  cases hsel : s.selectSingle token d.selectFault with
  | none => simp [Sys.exec, Sys.step, Run.step, download, hsel]
  | some row =>
    cases hu : row.used with
    | true => simp [Sys.exec, Sys.step, Run.step, download, hsel, hu]
    | false =>
      by_cases he : row.expires_at < d.now
      · simp [Sys.exec, Sys.step, Run.step, download, hsel, hu, he]
      · cases hs : d.signFault <;>
          simp [Sys.exec, Sys.step, Run.step, download, hsel, hu, he, createSignedUrl, hs]

/-! ## Claims -/

/-- C1. Sequential one-time redemption.  Let an upload be answered with a token
(it passed validation and both the put and the insert succeeded).  After any
requests that are not a download of that token, the first download of the token
at an instant before the expiry, with no collaborator failing, redirects to a
signed URL.  After any further requests whatsoever, a download of the same token
is never redirected and asks for no signed URL, and as long as its query is
answered it is refused with `token sudah dipakai`. -/
theorem sequential_one_time_redemption
    (env : UploadEnv) (req : UploadReq) (s : Store) (tok url : String)
    (hIssue : (apiUpload env req s).2.2 = .json 200 [("token", tok), ("downloadUrl", url)])
    (between : List Request) (hBetween : ∀ r ∈ between, ∀ e, r ≠ .download e tok)
    (d1 : DownloadEnv)
    (hd1 : d1.selectFault = false ∧ d1.updateFault = false ∧ d1.signFault = false)
    (hTime : d1.now < env.now + 24 * 3600 * 1000) :
    (download d1 tok (serve between (apiUpload env req s).1)).2.2
        = .redirect ⟨tok ++ ".bin", 60⟩ ∧
    ∀ (later : List Request) (d2 : DownloadEnv),
      (∀ u, (download d2 tok
          (serve later (download d1 tok (serve between (apiUpload env req s).1)).1)).2.2
            ≠ .redirect u) ∧
      (∀ c ∈ (download d2 tok
          (serve later (download d1 tok (serve between (apiUpload env req s).1)).1)).2.1,
            ∀ p n ok, c ≠ .createSignedUrl p n ok) ∧
      (d2.selectFault = false →
        (download d2 tok
          (serve later (download d1 tok (serve between (apiUpload env req s).1)).1)).2.2
            = .send 404 "token sudah dipakai") := by
  obtain ⟨a, -, htok, -, -, -, -, hfresh, hrun⟩ := apiUpload_token env req s tok url hIssue
  subst htok
  obtain ⟨hsel1, hupd1, hsign1⟩ := hd1
  -- the rows of the token right after the upload
  have hrows0 : (apiUpload env req s).1.rowsOf env.nanoid = [issuedRow env a] := by
    rw [hrun]
    have hnone : s.files.filter (fun r => r.id == env.nanoid) = [] := by
      rw [List.filter_eq_nil_iff]
      intro r hr hid
      have : s.files.any (fun r => r.id == env.nanoid) = true :=
        List.any_eq_true.mpr ⟨r, hr, hid⟩
      rw [hfresh] at this
      exact Bool.noConfusion this
    simp [Store.rowsOf, List.filter_append, hnone, issuedRow]
  -- they are untouched by the requests in between
  have hrows1 : (serve between (apiUpload env req s).1).rowsOf env.nanoid = [issuedRow env a] := by
    rw [rowsOf_serve_other between _ env.nanoid hBetween (by rw [hrows0]; simp), hrows0]
  have hsel : (serve between (apiUpload env req s).1).selectSingle env.nanoid d1.selectFault
      = some (issuedRow env a) := by
    rw [hsel1]; exact selectSingle_of_rows _ _ _ hrows1
  have hgrant := download_grant d1 env.nanoid (serve between (apiUpload env req s).1)
    (issuedRow env a) hsel rfl (by simp only [issuedRow]; omega) hsign1
  refine ⟨by rw [hgrant], ?_⟩
  intro later d2
  -- the rows of the token after the first download
  have hrows2 : (download d1 env.nanoid (serve between (apiUpload env req s).1)).1.rowsOf
      env.nanoid = [{ issuedRow env a with used := true }] := by
    rw [hgrant]
    simp [rowsOf_updateUsed, hrows1, hupd1]
  have hrows3 : (serve later (download d1 env.nanoid
      (serve between (apiUpload env req s).1)).1).rowsOf env.nanoid
      = [{ issuedRow env a with used := true }] := by
    rw [rowsOf_serve_used later _ env.nanoid (by rw [hrows2]; simp) (by rw [hrows2]; simp),
      hrows2]
  cases hf : d2.selectFault with
  | true =>
    have hmiss := download_missing d2 env.nanoid (serve later (download d1 env.nanoid
      (serve between (apiUpload env req s).1)).1) (by simp [Store.selectSingle, hf])
    rw [hmiss]
    simp
  | false =>
    have hsel2 := selectSingle_of_rows _ _ _ hrows3
    rw [← hf] at hsel2
    have hused := download_used d2 env.nanoid _ _ hsel2 rfl
    rw [hused]
    simp

/-- Witness of C1: the token of `report.pdf` is redeemed once; a meta lookup, a
second upload and a download of another token come in between, a second download
of the token comes later. -/
theorem sequential_one_time_redemption_witness :
    (download ⟨5000, false, false, false⟩ "V1StGXR8_Z5j"
      (serve [.meta false "V1StGXR8_Z5j",
              .upload ⟨"Zk3_9aQpLm-2", 2000, "http://localhost:3000", none, none⟩
                ⟨some [7], some "image/png", some "a.png"⟩,
              .download ⟨3000, false, false, false⟩ "Zk3_9aQpLm-2"]
        (apiUpload ⟨"V1StGXR8_Z5j", 1000, "http://localhost:3000", none, none⟩
          ⟨some [1, 2, 3], some "application/pdf", some "report.pdf"⟩ ⟨[], []⟩).1)).2.2
      = .redirect ⟨"V1StGXR8_Z5j" ++ ".bin", 60⟩ ∧
    (download ⟨6000, false, true, true⟩ "V1StGXR8_Z5j"
      (serve [.download ⟨5500, false, false, false⟩ "V1StGXR8_Z5j"]
        (download ⟨5000, false, false, false⟩ "V1StGXR8_Z5j"
          (serve [.meta false "V1StGXR8_Z5j",
                  .upload ⟨"Zk3_9aQpLm-2", 2000, "http://localhost:3000", none, none⟩
                    ⟨some [7], some "image/png", some "a.png"⟩,
                  .download ⟨3000, false, false, false⟩ "Zk3_9aQpLm-2"]
            (apiUpload ⟨"V1StGXR8_Z5j", 1000, "http://localhost:3000", none, none⟩
              ⟨some [1, 2, 3], some "application/pdf", some "report.pdf"⟩ ⟨[], []⟩).1)).1)).2.2
      = .send 404 "token sudah dipakai" :=
  have h := sequential_one_time_redemption
    ⟨"V1StGXR8_Z5j", 1000, "http://localhost:3000", none, none⟩
    ⟨some [1, 2, 3], some "application/pdf", some "report.pdf"⟩ ⟨[], []⟩
    "V1StGXR8_Z5j" "http://localhost:3000/download/V1StGXR8_Z5j" (by decide)
    [.meta false "V1StGXR8_Z5j",
     .upload ⟨"Zk3_9aQpLm-2", 2000, "http://localhost:3000", none, none⟩
       ⟨some [7], some "image/png", some "a.png"⟩,
     .download ⟨3000, false, false, false⟩ "Zk3_9aQpLm-2"]
    (by simp) ⟨5000, false, false, false⟩ ⟨rfl, rfl, rfl⟩ (by decide)
  ⟨h.1, (h.2 [.download ⟨5500, false, false, false⟩ "V1StGXR8_Z5j"]
    ⟨6000, false, true, true⟩).2.2 rfl⟩

/-- C2. Two downloads of one unused, unexpired token whose steps interleave as
query 0, query 1, update 0, update 1, sign 0, sign 1: both runs are redirected
to the signed URL and the signed URL is requested twice; no run is refused with
`token sudah dipakai`. -/
theorem concurrent_redemption_double_delivery :
    Sys.exec [0, 1, 0, 1, 0, 1]
        (raceOn "V1StGXR8_Z5j" 5000 2
          ⟨[⟨"V1StGXR8_Z5j", "report.pdf", "application/pdf", 3, 86401000, false⟩],
           [⟨"V1StGXR8_Z5j.bin", [1, 2, 3], "application/octet-stream"⟩]⟩) =
      ⟨⟨[⟨"V1StGXR8_Z5j", "report.pdf", "application/pdf", 3, 86401000, true⟩],
         [⟨"V1StGXR8_Z5j.bin", [1, 2, 3], "application/octet-stream"⟩]⟩,
       [⟨⟨5000, false, false, false⟩, "V1StGXR8_Z5j", .done (.redirect ⟨"V1StGXR8_Z5j.bin", 60⟩)⟩,
        ⟨⟨5000, false, false, false⟩, "V1StGXR8_Z5j", .done (.redirect ⟨"V1StGXR8_Z5j.bin", 60⟩)⟩],
       [.select "*" "V1StGXR8_Z5j" true, .select "*" "V1StGXR8_Z5j" true,
        .update "V1StGXR8_Z5j" true, .update "V1StGXR8_Z5j" true,
        .createSignedUrl "V1StGXR8_Z5j.bin" 60 true,
        .createSignedUrl "V1StGXR8_Z5j.bin" 60 true]⟩ := by
  decide

/-- C3, as stated, fails at the instant of expiry: a download at the instant
`expires_at` of an unused row is granted, although the current time is not
before `expires_at`. -/
theorem redeemable_at_expiry_instant :
    Granted ⟨86401000, false, false, false⟩ "V1StGXR8_Z5j"
        ⟨[⟨"V1StGXR8_Z5j", "report.pdf", "application/pdf", 3, 86401000, false⟩], []⟩ ∧
      ¬ (86401000 <
        (⟨"V1StGXR8_Z5j", "report.pdf", "application/pdf", 3, 86401000, false⟩ :
          FileRow).expires_at) := by
  constructor
  · unfold Granted
    decide
  · decide

/-- C3, amended.  For every stored row that the query of a download finds and
every current time: the handler runs the update and asks for the signed URL if
and only if the row is unused and the current time is not after `expires_at`;
and when neither the update nor the signing fails, access is granted (redirect
to the signed URL, row marked used) under exactly the same condition. -/
theorem redeemable_iff (d : DownloadEnv) (token : String) (s : Store) (row : FileRow)
    (hsel : s.selectSingle token d.selectFault = some row) :
    ((∃ ok, Call.createSignedUrl (token ++ ".bin") 60 ok ∈ (download d token s).2.1) ↔
        (row.used = false ∧ d.now ≤ row.expires_at)) ∧
    ((∃ ok, Call.update token ok ∈ (download d token s).2.1) ↔
        (row.used = false ∧ d.now ≤ row.expires_at)) ∧
    (d.updateFault = false → d.signFault = false →
      (Granted d token s ↔ (row.used = false ∧ d.now ≤ row.expires_at))) := by
  have hrows : s.rowsOf token = [row] := by
    unfold Store.selectSingle at hsel
    split at hsel
    · exact Option.noConfusion hsel
    · split at hsel
      · rename_i r hr
        rw [hr]
        injection hsel with h
        rw [h]
      · exact Option.noConfusion hsel
  cases hu : row.used with
  | true =>
    have h := download_used d token s row hsel hu
    simp [Granted, h]
  | false =>
    by_cases he : row.expires_at < d.now
    · have hn : ¬ d.now ≤ row.expires_at := by omega
      simp [Granted, download, hsel, hu, he, hn]
    · have hn : d.now ≤ row.expires_at := by omega
      refine ⟨?_, ?_, ?_⟩
      · cases hs : d.signFault <;>
          simp [download, hsel, hu, he, hn, createSignedUrl, hs]
      · cases hs : d.signFault <;>
          simp [download, hsel, hu, he, hn, createSignedUrl, hs]
      · intro hupd hsign
        have h := download_grant d token s row hsel hu he hsign
        simp [Granted, h, hn, rowsOf_updateUsed, hrows, hupd]

/-- Witness of the amended C3: at the instant of expiry an unused row is redeemable. -/
theorem redeemable_iff_witness :
    Granted ⟨86401000, false, false, false⟩ "V1StGXR8_Z5j"
        ⟨[⟨"V1StGXR8_Z5j", "report.pdf", "application/pdf", 3, 86401000, false⟩], []⟩ ↔
      ((⟨"V1StGXR8_Z5j", "report.pdf", "application/pdf", 3, 86401000, false⟩ :
          FileRow).used = false ∧
        (⟨86401000, false, false, false⟩ : DownloadEnv).now ≤
          (⟨"V1StGXR8_Z5j", "report.pdf", "application/pdf", 3, 86401000, false⟩ :
            FileRow).expires_at) :=
  (redeemable_iff ⟨86401000, false, false, false⟩ "V1StGXR8_Z5j"
    ⟨[⟨"V1StGXR8_Z5j", "report.pdf", "application/pdf", 3, 86401000, false⟩], []⟩
    ⟨"V1StGXR8_Z5j", "report.pdf", "application/pdf", 3, 86401000, false⟩
    (by decide)).2.2 rfl rfl

/-- C4, as stated, fails for a token that was redeemed before it expired: the
download of a used row whose `expires_at` is in the past is refused with
`token sudah dipakai`, not with `token kedaluwarsa`. -/
theorem expired_used_reports_used :
    (⟨"V1StGXR8_Z5j", "report.pdf", "application/pdf", 3, 86401000, true⟩ :
        FileRow).expires_at < 90000000 ∧
      (download ⟨90000000, false, false, false⟩ "V1StGXR8_Z5j"
        ⟨[⟨"V1StGXR8_Z5j", "report.pdf", "application/pdf", 3, 86401000, true⟩], []⟩).2.2
        = .send 404 "token sudah dipakai" ∧
      (download ⟨90000000, false, false, false⟩ "V1StGXR8_Z5j"
        ⟨[⟨"V1StGXR8_Z5j", "report.pdf", "application/pdf", 3, 86401000, true⟩], []⟩).2.2
        ≠ .send 404 "token kedaluwarsa" := by
  decide

/-- C4, amended.  For every row that the query of a download finds and whose
`expires_at` is in the past: the download is refused with `token kedaluwarsa`
when the row is unused and with `token sudah dipakai` when it is used; in both
cases the store is unchanged, the query is the only call made (no update, no
signed URL) and the response is no redirect. -/
theorem expired_refused (d : DownloadEnv) (token : String) (s : Store) (row : FileRow)
    (hsel : s.selectSingle token d.selectFault = some row)
    (hexp : row.expires_at < d.now) :
    download d token s =
      (s, [.select "*" token true],
        .send 404 (if row.used then "token sudah dipakai" else "token kedaluwarsa")) := by
  cases hu : row.used <;> simp [download, hsel, hu, hexp]

/-- Witness of the amended C4: an unused row one millisecond past its expiry. -/
theorem expired_refused_witness :
    download ⟨86401001, false, false, false⟩ "V1StGXR8_Z5j"
        ⟨[⟨"V1StGXR8_Z5j", "report.pdf", "application/pdf", 3, 86401000, false⟩], []⟩ =
      (⟨[⟨"V1StGXR8_Z5j", "report.pdf", "application/pdf", 3, 86401000, false⟩], []⟩,
        [.select "*" "V1StGXR8_Z5j" true],
        .send 404 (if (⟨"V1StGXR8_Z5j", "report.pdf", "application/pdf", 3, 86401000, false⟩ :
            FileRow).used then "token sudah dipakai" else "token kedaluwarsa")) :=
  expired_refused ⟨86401001, false, false, false⟩ "V1StGXR8_Z5j"
    ⟨[⟨"V1StGXR8_Z5j", "report.pdf", "application/pdf", 3, 86401000, false⟩], []⟩
    ⟨"V1StGXR8_Z5j", "report.pdf", "application/pdf", 3, 86401000, false⟩
    (by decide) (by decide)

/-- C5. A download whose update fails (the store reports an error and changes
nothing) still asks for the signed URL and redirects the caller to it; the row
is left unused. -/
theorem locator_issued_after_failed_update :
    download ⟨5000, false, true, false⟩ "V1StGXR8_Z5j"
        ⟨[⟨"V1StGXR8_Z5j", "report.pdf", "application/pdf", 3, 86401000, false⟩],
         [⟨"V1StGXR8_Z5j.bin", [1, 2, 3], "application/octet-stream"⟩]⟩ =
      (⟨[⟨"V1StGXR8_Z5j", "report.pdf", "application/pdf", 3, 86401000, false⟩],
        [⟨"V1StGXR8_Z5j.bin", [1, 2, 3], "application/octet-stream"⟩]⟩,
       [.select "*" "V1StGXR8_Z5j" true, .update "V1StGXR8_Z5j" false,
        .createSignedUrl "V1StGXR8_Z5j.bin" 60 true],
       .redirect ⟨"V1StGXR8_Z5j.bin", 60⟩) := by
  decide

/-- C6, as stated, fails for a file name header that is not well-formed
percent-encoding: the upload is rejected with the decoder's `URI malformed`,
which is the reason of none of the six rules. -/
theorem undecodable_name_reason :
    validate ⟨some [0], some "image/png", some "%"⟩ = .error "URI malformed" ∧
      "URI malformed" ∉ sixRules.map Rule.reason := by
  decide

/-- C6, amended.  For every upload input, the reason reported by the
validation is that of the first failing rule in the order: 1 empty payload,
2 payload longer than 5 MiB, 3 MIME not in the allow-list, then file name header
not decodable (reported with the decoder's error), 4 file name empty after
trimming, 5 file name with a character outside the allow-set, 6 extension not
in the allow-list; and nothing is reported when no rule fails.  The two
examples of the claim hold. -/
theorem first_failing_rule :
    (∀ req : UploadReq, reported req = firstFailure sevenRules req) ∧
    reported ⟨some [], some "text/plain", some "a.exe"⟩ = some "file kosong" ∧
    reported ⟨some [0], some "text/plain", some "a.exe"⟩ = some "MIME tidak valid" := by
  refine ⟨?_, by decide, by decide⟩
  intro req
  rcases validate_cases req with ⟨h0, hv⟩ | ⟨buf, hb, hne, hrest⟩
  · rw [sevenRules, firstFailure_cons_true _ _ _ ((ruleNonEmpty_fails req).mpr h0)]
    simp [reported, hv, ruleNonEmpty]
  have f1 : ¬ ruleNonEmpty.fails req = true := by
    rw [ruleNonEmpty_fails, hb]; exact hne
  rw [sevenRules, firstFailure_cons_false _ _ _ f1]
  rcases hrest with ⟨h1, hv⟩ | ⟨h1, hrest⟩
  · rw [firstFailure_cons_true _ _ _ ((ruleSize_fails req).mpr (by rw [hb]; exact h1))]
    simp [reported, hv, ruleSize]
  have f2 : ¬ ruleSize.fails req = true := by
    rw [ruleSize_fails, hb]; simp only [Option.getD_some]; omega
  rw [firstFailure_cons_false _ _ _ f2]
  rcases hrest with ⟨hm, hv⟩ | ⟨mime, hm, hrest⟩
  · rw [firstFailure_cons_true _ _ _ ((ruleMime_fails req).mpr hm)]
    simp [reported, hv, ruleMime]
  have f3 : ¬ ruleMime.fails req = true := by
    rw [ruleMime_fails, hm]; simp
  rw [firstFailure_cons_false _ _ _ f3]
  rcases hrest with ⟨hd, hv⟩ | ⟨name, hd, hrest⟩
  · rw [firstFailure_cons_true _ _ _ ((ruleDecodable_fails req).mpr hd)]
    simp [reported, hv, ruleDecodable]
  have f4 : ¬ ruleDecodable.fails req = true := by
    rw [ruleDecodable_fails, hd]; simp
  rw [firstFailure_cons_false _ _ _ f4]
  rcases hrest with ⟨hn, hv⟩ | ⟨hn, hrest⟩
  · rw [firstFailure_cons_true _ _ _ ((ruleNamePresent_fails req).mpr (by rw [hd, hn]))]
    simp [reported, hv, ruleNamePresent]
  have f5 : ¬ ruleNamePresent.fails req = true := by
    rw [ruleNamePresent_fails, hd]; simpa using hn
  rw [firstFailure_cons_false _ _ _ f5]
  rcases hrest with ⟨hi, hv⟩ | ⟨hi, hrest⟩
  · rw [firstFailure_cons_true _ _ _ (by rw [ruleNameChars_fails req name hd]; exact hi)]
    simp [reported, hv, ruleNameChars]
  have f6 : ¬ ruleNameChars.fails req = true := by
    rw [ruleNameChars_fails req name hd, hi]; simp
  rw [firstFailure_cons_false _ _ _ f6]
  rcases hrest with ⟨he, hv⟩ | ⟨he, hv⟩
  · rw [firstFailure_cons_true _ _ _ ((ruleExtension_fails req name hd).mpr he)]
    simp [reported, hv, ruleExtension]
  · have f7 : ¬ ruleExtension.fails req = true := by
      rw [ruleExtension_fails req name hd]; exact fun h => h he
    rw [firstFailure_cons_false _ _ _ f7]
    simp [reported, hv, firstFailure]

/-- C7. An upload passes validation if and only if: its payload is longer than
0 and at most 5 * 1024 * 1024 bytes, its declared MIME type is image/png,
image/jpeg or application/pdf, its file name header decodes to a name that is
non-empty after trimming, every character of the trimmed name is an ASCII
letter, a digit, underscore, hyphen, period or space, and the substring after
the last period of the trimmed name (the whole name when it has none),
lower-cased, is png, jpg, jpeg or pdf. -/
theorem validate_accepts_iff (req : UploadReq) :
    (∃ a, validate req = .ok a) ↔ Acceptable req := by
  rcases validate_cases req with ⟨h0, hv⟩ | ⟨buf, hb, hne, ⟨h1, hv⟩ | ⟨h1, ⟨hm, hv⟩ |
    ⟨mime, hm, ⟨hd, hv⟩ | ⟨name, hd, ⟨hn, hv⟩ | ⟨hn, ⟨hi, hv⟩ | ⟨hi, ⟨he, hv⟩ | ⟨he, hv⟩⟩⟩⟩⟩⟩⟩
  all_goals constructor
  all_goals intro hyp
  -- the seven rejections, left to right: `validate` does not accept
  any_goals (obtain ⟨a, ha⟩ := hyp; rw [hv] at ha; exact Except.noConfusion ha)
  -- the acceptance, left to right
  any_goals
    (obtain ⟨dec, hdec, hname⟩ : ∃ dec, decodeURIComponent (req.xFilename.getD "") = some dec ∧
        jsTrim dec = name := by
      simpa [declaredName] using hd
     subst hname
     refine ⟨buf, hb, List.length_pos.mpr hne, by unfold MAX_SIZE at h1; omega, ?_, dec, hdec, hn,
       ?_, ?_⟩
     · have := ((mimeAllowed_eq_some req.xMime mime).mp hm).2
       simpa using this
     · intro c hc
       rw [hasIllegalChar_eq] at hi
       cases hcc : inAllowSet c with
       | true => rfl
       | false =>
         have : (jsTrim dec).data.any (fun c => !inAllowSet c) = true :=
           List.any_eq_true.mpr ⟨c, hc, by simp [hcc]⟩
         rw [hi] at this
         exact Bool.noConfusion this
     · rw [← lastSegment_eq_afterLastDot]
       simpa [ALLOWED_EXT] using he)
  -- the seven rejections, right to left: the request is not acceptable
  all_goals obtain ⟨payload, hp, hpos, hmax, hmime, dec, hdec, hne2, hchars, hext⟩ := hyp
  · rw [hp] at h0
    simp only [Option.getD_some] at h0
    rw [h0] at hpos
    exact absurd hpos (by decide)
  · rw [hp] at hb
    injection hb with hb
    subst hb
    unfold MAX_SIZE at h1
    omega
  · exfalso
    have := (mimeAllowed_eq_none req.xMime).mp hm
    apply this
    simpa using hmime
  · simp [declaredName, hdec] at hd
  · have : jsTrim dec = name := by simpa [declaredName, hdec] using hd
    rw [this] at hne2
    exact absurd hn hne2
  · have : jsTrim dec = name := by simpa [declaredName, hdec] using hd
    rw [this] at hchars
    rw [hasIllegalChar_eq] at hi
    obtain ⟨c, hc, hcc⟩ := List.any_eq_true.mp hi
    rw [hchars c hc] at hcc
    exact absurd hcc (by decide)
  · have : jsTrim dec = name := by simpa [declaredName, hdec] using hd
    rw [this, ← lastSegment_eq_afterLastDot] at hext
    exact absurd hext he
  · exact ⟨_, hv⟩

/-- C8, as stated, fails for the payload of 5 MiB + 1 bytes: the route answers
it with the body parser's status 413 before the handler runs, so it is not the
upload validation that rejects it, and the answer is not the 400 with the size
reason of the validation. -/
theorem oversize_answered_with_413 :
    postUpload "Payload Too Large"
        ⟨"V1StGXR8_Z5j", 1000, "http://localhost:3000", none, none⟩
        ⟨some (List.replicate (5 * 1024 * 1024 + 1) 0), some "image/png", some "a.png"⟩
        ⟨[], []⟩
      = (⟨[], []⟩, [], .send 413 "Payload Too Large") ∧
    Response.send 413 "Payload Too Large" ≠ .json 400 [("error", "file > 5\u202fMB")] := by
  refine ⟨?_, by decide⟩
  apply postUpload_too_long
  rw [List.length_replicate]
  decide

/-- C8, amended.  Each of the six inputs of the claim is rejected at the upload
route, and the six answers are pairwise distinct.  The empty payload, the MIME
type `text/plain`, the empty file name, the file name with `;` and the
extension `exe` are rejected by the upload validation, with status 400 and the
reason of their own rule.  The payload of 5 MiB + 1 bytes is rejected by the body
parser with status 413 before the handler runs; the size reason of the
validation is never reported for a body within the parser's limit. -/
theorem six_rejections (errorPage : String) (env : UploadEnv) (s : Store) :
    (validate ⟨some [], some "image/png", some "a.png"⟩ = .error "file kosong" ∧
      postUpload errorPage env ⟨some [], some "image/png", some "a.png"⟩ s
        = (s, [], .json 400 [("error", "file kosong")])) ∧
    postUpload errorPage env
        ⟨some (List.replicate (5 * 1024 * 1024 + 1) 0), some "image/png", some "a.png"⟩ s
      = (s, [], .send 413 errorPage) ∧
    (validate ⟨some [0], some "text/plain", some "a.png"⟩ = .error "MIME tidak valid" ∧
      postUpload errorPage env ⟨some [0], some "text/plain", some "a.png"⟩ s
        = (s, [], .json 400 [("error", "MIME tidak valid")])) ∧
    (validate ⟨some [0], some "image/png", some ""⟩ = .error "nama file wajib" ∧
      postUpload errorPage env ⟨some [0], some "image/png", some ""⟩ s
        = (s, [], .json 400 [("error", "nama file wajib")])) ∧
    (validate ⟨some [0], some "image/png", some "a;b.png"⟩ = .error "nama file ilegal" ∧
      postUpload errorPage env ⟨some [0], some "image/png", some "a;b.png"⟩ s
        = (s, [], .json 400 [("error", "nama file ilegal")])) ∧
    (validate ⟨some [0], some "image/png", some "a.exe"⟩ = .error "ekstensi dilarang" ∧
      postUpload errorPage env ⟨some [0], some "image/png", some "a.exe"⟩ s
        = (s, [], .json 400 [("error", "ekstensi dilarang")])) ∧
    [Response.json 400 [("error", "file kosong")], .send 413 errorPage,
      .json 400 [("error", "MIME tidak valid")], .json 400 [("error", "nama file wajib")],
      .json 400 [("error", "nama file ilegal")],
      .json 400 [("error", "ekstensi dilarang")]].Nodup ∧
    (∀ (req : UploadReq) (sent : Bytes), req.body = some sent → sent.length ≤ rawLimit →
      validate req ≠ .error "file > 5\u202fMB") := by
  refine ⟨⟨by decide, ?_⟩, ?_, ⟨by decide, ?_⟩, ⟨by decide, ?_⟩, ⟨by decide, ?_⟩,
    ⟨by decide, ?_⟩, ?_, size_check_unreachable⟩
  · exact postUpload_rejected errorPage env _ [] s _ rfl (by decide) (by decide)
  · apply postUpload_too_long
    rw [List.length_replicate]
    decide
  · exact postUpload_rejected errorPage env _ [0] s _ rfl (by decide) (by decide)
  · exact postUpload_rejected errorPage env _ [0] s _ rfl (by decide) (by decide)
  · exact postUpload_rejected errorPage env _ [0] s _ rfl (by decide) (by decide)
  · exact postUpload_rejected errorPage env _ [0] s _ rfl (by decide) (by decide)
  · simp

/-- Witness of the amended C8: a one-byte body is within the parser's limit and
is not rejected for its size. -/
theorem six_rejections_witness :
    validate ⟨some [0], some "image/png", some "a.png"⟩ ≠ .error "file > 5\u202fMB" :=
  (six_rejections "Payload Too Large"
    ⟨"V1StGXR8_Z5j", 1000, "http://localhost:3000", none, none⟩ ⟨[], []⟩).2.2.2.2.2.2.2
    ⟨some [0], some "image/png", some "a.png"⟩ [0] rfl (by decide)

/-- C9. An upload that fails the validation leaves the store unchanged, makes
no call at all (no identifier generated, no put, no insert) and is answered with
status 400 and the rejection reason as its only field. -/
theorem validation_failure_no_effect (env : UploadEnv) (req : UploadReq) (s : Store)
    (message : String) (h : validate req = .error message) :
    apiUpload env req s = (s, [], .json 400 [("error", message)]) := by
  have hne := validate_error_ne_empty req message h
  simp [apiUpload, h, orUploadFailed, hne]

/-- Witness of C9: a file named `a.exe` uploaded to a store with one row. -/
theorem validation_failure_no_effect_witness :
    apiUpload ⟨"V1StGXR8_Z5j", 1000, "http://localhost:3000", none, none⟩
        ⟨some [0], some "image/png", some "a.exe"⟩
        ⟨[⟨"Zk3_9aQpLm-2", "a.png", "image/png", 1, 86400500, false⟩],
         [⟨"Zk3_9aQpLm-2.bin", [7], "application/octet-stream"⟩]⟩ =
      (⟨[⟨"Zk3_9aQpLm-2", "a.png", "image/png", 1, 86400500, false⟩],
        [⟨"Zk3_9aQpLm-2.bin", [7], "application/octet-stream"⟩]⟩, [],
       .json 400 [("error", "ekstensi dilarang")]) :=
  validation_failure_no_effect ⟨"V1StGXR8_Z5j", 1000, "http://localhost:3000", none, none⟩
    ⟨some [0], some "image/png", some "a.exe"⟩
    ⟨[⟨"Zk3_9aQpLm-2", "a.png", "image/png", 1, 86400500, false⟩],
     [⟨"Zk3_9aQpLm-2.bin", [7], "application/octet-stream"⟩]⟩ "ekstensi dilarang" (by decide)

/-- C10. In every run of the upload handler: (1) an insert is requested only as
the call that directly follows a successful put of the row's object `id.bin`,
and that object is in the bucket afterwards; (2) when the put fails the store is
unchanged, no insert is requested and the answer is a 400 with only an error
field; (3) when the insert fails after a successful put, no row is added and the
answer is a 400 with only an error field; (4), (5) the same two facts stated on
what the collaborators report; (6) hence the handler keeps every row backed by
its stored object, and so does every sequence of requests from the empty store. -/
theorem issue_ordering (env : UploadEnv) (req : UploadReq) (s : Store) :
    (∀ row ok, Call.insert row ok ∈ (apiUpload env req s).2.1 →
      ∃ body, (apiUpload env req s).2.1 =
          [.nanoid row.id,
           .storageUpload (row.id ++ ".bin") body "application/octet-stream" true,
           .insert row ok] ∧
        (⟨row.id ++ ".bin", body, "application/octet-stream"⟩ : StoredObject) ∈
          (apiUpload env req s).1.encrypted) ∧
    (∀ path body ct, Call.storageUpload path body ct false ∈ (apiUpload env req s).2.1 →
      (apiUpload env req s).1 = s ∧
      (∀ row ok, Call.insert row ok ∉ (apiUpload env req s).2.1) ∧
      ∃ m, (apiUpload env req s).2.2 = .json 400 [("error", m)]) ∧
    (∀ row, Call.insert row false ∈ (apiUpload env req s).2.1 →
      (apiUpload env req s).1.files = s.files ∧
      ∃ m, (apiUpload env req s).2.2 = .json 400 [("error", m)]) ∧
    (∀ a e, validate req = .ok a →
      (s.upload (env.nanoid ++ ".bin") a.fileBuffer "application/octet-stream" env.upFault).2
        = some e →
      apiUpload env req s =
        (s, [.nanoid env.nanoid,
             .storageUpload (env.nanoid ++ ".bin") a.fileBuffer "application/octet-stream" false],
          .json 400 [("error", orUploadFailed e)])) ∧
    (∀ a e, validate req = .ok a →
      (s.upload (env.nanoid ++ ".bin") a.fileBuffer "application/octet-stream" env.upFault).2
        = none →
      ((s.upload (env.nanoid ++ ".bin") a.fileBuffer "application/octet-stream" env.upFault).1.insert
        (issuedRow env a) env.dbFault).2 = some e →
      (apiUpload env req s).1.files = s.files ∧
      (apiUpload env req s).2.2 = .json 400 [("error", orUploadFailed e)]) ∧
    (Backed s → Backed (apiUpload env req s).1) ∧
    (∀ rs : List Request, Backed (serve rs ⟨[], []⟩)) := by
  refine ⟨?_, ?_, ?_, ?_, ?_, backed_handle (.upload env req) s, ?_⟩
  · intro row ok hmem
    rcases apiUpload_cases env req s with ⟨m, -, he⟩ | ⟨a, -, ⟨e, he⟩ | ⟨e, he⟩ | he⟩
    · rw [he] at hmem; simp at hmem
    · rw [he] at hmem; simp at hmem
    · rw [he] at hmem ⊢
      simp only [List.mem_cons, List.mem_singleton, List.not_mem_nil, or_false, false_or,
        Call.insert.injEq, reduceCtorEq] at hmem
      obtain ⟨h1, h2⟩ := hmem
      subst h1 h2
      exact ⟨a.fileBuffer, rfl, by simp [issuedObject, issuedRow]⟩
    · rw [he] at hmem ⊢
      simp only [List.mem_cons, List.mem_singleton, List.not_mem_nil, or_false, false_or,
        Call.insert.injEq, reduceCtorEq] at hmem
      obtain ⟨h1, h2⟩ := hmem
      subst h1 h2
      exact ⟨a.fileBuffer, rfl, by simp [issuedObject, issuedRow]⟩
  · intro path body ct hmem
    rcases apiUpload_cases env req s with ⟨m, -, he⟩ | ⟨a, -, ⟨e, he⟩ | ⟨e, he⟩ | he⟩
    · rw [he] at hmem; simp at hmem
    · rw [he]
      exact ⟨rfl, by simp, _, rfl⟩
    · rw [he] at hmem; simp at hmem
    · rw [he] at hmem; simp at hmem
  · intro row hmem
    rcases apiUpload_cases env req s with ⟨m, -, he⟩ | ⟨a, -, ⟨e, he⟩ | ⟨e, he⟩ | he⟩
    · rw [he] at hmem; simp at hmem
    · rw [he] at hmem; simp at hmem
    · rw [he]
      exact ⟨rfl, _, rfl⟩
    · rw [he] at hmem; simp at hmem
  · intro a e hv hu
    rcases upload_cases s (env.nanoid ++ ".bin") a.fileBuffer "application/octet-stream"
      env.upFault with ⟨e2, hu2⟩ | hu2
    · rw [hu2] at hu
      simp only [Option.some.injEq] at hu
      subst hu
      simp only [apiUpload, hv, hu2]
    · rw [hu2] at hu
      exact Option.noConfusion hu
  · intro a e hv hu hi
    rcases upload_cases s (env.nanoid ++ ".bin") a.fileBuffer "application/octet-stream"
      env.upFault with ⟨e2, hu2⟩ | hu2
    · rw [hu2] at hu
      exact Option.noConfusion hu
    · rw [hu2] at hi
      rcases insert_cases ⟨s.files, s.encrypted ++
          [⟨env.nanoid ++ ".bin", a.fileBuffer, "application/octet-stream"⟩]⟩
        (issuedRow env a) env.dbFault with ⟨e2, hi2⟩ | hi2
      · rw [hi2] at hi
        simp only [Option.some.injEq] at hi
        subst hi
        simp only [issuedRow] at hi2
        simp only [apiUpload, hv, hu2, hi2, and_self]
      · rw [hi2] at hi
        exact Option.noConfusion hi
  · intro rs
    apply backed_serve
    intro r hr
    simp at hr

/-- Witness of C10: the table fails on the insert after the object was stored;
no row is added and the caller gets the error and no token. -/
theorem issue_ordering_witness :
    (apiUpload ⟨"V1StGXR8_Z5j", 1000, "http://localhost:3000", none, some "connection lost"⟩
        ⟨some [1, 2, 3], some "application/pdf", some "report.pdf"⟩ ⟨[], []⟩).1.files = [] ∧
    (apiUpload ⟨"V1StGXR8_Z5j", 1000, "http://localhost:3000", none, some "connection lost"⟩
        ⟨some [1, 2, 3], some "application/pdf", some "report.pdf"⟩ ⟨[], []⟩).2.2
      = .json 400 [("error", orUploadFailed "connection lost")] :=
  (issue_ordering ⟨"V1StGXR8_Z5j", 1000, "http://localhost:3000", none, some "connection lost"⟩
    ⟨some [1, 2, 3], some "application/pdf", some "report.pdf"⟩ ⟨[], []⟩).2.2.2.2.1
    ⟨[1, 2, 3], "application/pdf", "report.pdf"⟩ "connection lost" (by decide) (by decide)
    (by decide)

/-- C11, as stated, fails for the file name: the header `report.pdf%20` is
accepted and the row is inserted with `original_name = "report.pdf"`, which is
neither the declared header nor its decoding `"report.pdf "`. -/
theorem issued_name_is_trimmed :
    (apiUpload ⟨"V1StGXR8_Z5j", 1000, "http://localhost:3000", none, none⟩
        ⟨some [1, 2, 3], some "application/pdf", some "report.pdf%20"⟩ ⟨[], []⟩).1.files
      = [⟨"V1StGXR8_Z5j", "report.pdf", "application/pdf", 3, 86401000, false⟩] ∧
    "report.pdf" ≠ "report.pdf%20" ∧
    decodeURIComponent "report.pdf%20" = some "report.pdf " ∧
    "report.pdf" ≠ "report.pdf " := by
  decide

/-- C11, amended.  For every upload answered with a token, at time `now`, with
payload `P`, declared MIME type `M` and a file name header that decodes to
`decoded`: exactly one row is appended to the table, with `id` the returned
token, `original_name` the decoded and trimmed file name, `mime = M`,
`size = length P`, `expires_at = now + 86400000` and `used = false`; exactly
one object is appended to the bucket, under the path `id.bin`, with body `P`
and content type `application/octet-stream` whatever `M` is; and the handler
made exactly one put and one insert, in this order. -/
theorem issued_record_contents (env : UploadEnv) (req : UploadReq) (s : Store)
    (tok url : String)
    (hIssue : (apiUpload env req s).2.2 = .json 200 [("token", tok), ("downloadUrl", url)]) :
    ∃ P M decoded, req.body = some P ∧ req.xMime = some M ∧
      decodeURIComponent (req.xFilename.getD "") = some decoded ∧
      (apiUpload env req s).1.files =
        s.files ++ [⟨tok, jsTrim decoded, M, P.length, env.now + 86400000, false⟩] ∧
      (apiUpload env req s).1.encrypted =
        s.encrypted ++ [⟨tok ++ ".bin", P, "application/octet-stream"⟩] ∧
      (apiUpload env req s).2.1 =
        [.nanoid tok, .storageUpload (tok ++ ".bin") P "application/octet-stream" true,
         .insert ⟨tok, jsTrim decoded, M, P.length, env.now + 86400000, false⟩ true] := by
  obtain ⟨a, hv, htok, -, -, -, -, -, hrun⟩ := apiUpload_token env req s tok url hIssue
  obtain ⟨hb, hm, decoded, hdec, hname⟩ := validate_ok_fields req a hv
  subst htok
  refine ⟨a.fileBuffer, a.mime, decoded, hb, hm, hdec, ?_, ?_, ?_⟩
  · rw [hrun]; simp [issuedRow, hname]
  · rw [hrun]; simp [issuedObject]
  · rw [hrun]; simp [issuedRow, hname]

/-- Witness of the amended C11: `report.pdf` issued at time 1000. -/
theorem issued_record_contents_witness :
    (apiUpload ⟨"V1StGXR8_Z5j", 1000, "http://localhost:3000", none, none⟩
        ⟨some [1, 2, 3], some "application/pdf", some "report.pdf"⟩ ⟨[], []⟩).1.files =
      [⟨"V1StGXR8_Z5j", "report.pdf", "application/pdf", 3, 86401000, false⟩] ∧
    (apiUpload ⟨"V1StGXR8_Z5j", 1000, "http://localhost:3000", none, none⟩
        ⟨some [1, 2, 3], some "application/pdf", some "report.pdf"⟩ ⟨[], []⟩).1.encrypted =
      [⟨"V1StGXR8_Z5j.bin", [1, 2, 3], "application/octet-stream"⟩] := by
  obtain ⟨P, M, decoded, hb, hm, hd, hf, he, -⟩ :=
    issued_record_contents ⟨"V1StGXR8_Z5j", 1000, "http://localhost:3000", none, none⟩
      ⟨some [1, 2, 3], some "application/pdf", some "report.pdf"⟩ ⟨[], []⟩
      "V1StGXR8_Z5j" "http://localhost:3000/download/V1StGXR8_Z5j" (by decide)
  have hP : P = [1, 2, 3] := by injection hb with hb; exact hb.symm
  have hM : M = "application/pdf" := by injection hm with hm; exact hm.symm
  have hD : decoded = "report.pdf" := by
    have h2 : decodeURIComponent "report.pdf" = some "report.pdf" := by decide
    have h3 : decodeURIComponent "report.pdf" = some decoded := hd
    rw [h2] at h3
    injection h3 with h3
    exact h3.symm
  subst hP hM hD
  have hT : jsTrim "report.pdf" = "report.pdf" := by decide
  rw [hT] at hf
  exact ⟨hf, he⟩

/-- C12. Payload round trip.  Let an upload with payload `X` be answered with a
token.  The handler stored `X` under the path `token.bin`.  After any requests
that are not a download of the token, the first download of the token before
the expiry, with no collaborator failing, asks for exactly one signed URL, for
the path `token.bin` with a lifetime of 60 seconds, and redirects to it; and
fetching that URL within its lifetime yields `X`. -/
theorem payload_round_trip
    (env : UploadEnv) (req : UploadReq) (s : Store) (tok url : String) (X : Bytes)
    (hIssue : (apiUpload env req s).2.2 = .json 200 [("token", tok), ("downloadUrl", url)])
    (hX : req.body = some X)
    (between : List Request) (hBetween : ∀ r ∈ between, ∀ e, r ≠ .download e tok)
    (d1 : DownloadEnv)
    (hd1 : d1.selectFault = false ∧ d1.updateFault = false ∧ d1.signFault = false)
    (hTime : d1.now < env.now + 24 * 3600 * 1000) :
    Call.storageUpload (tok ++ ".bin") X "application/octet-stream" true
        ∈ (apiUpload env req s).2.1 ∧
    (download d1 tok (serve between (apiUpload env req s).1)).2 =
      ([.select "*" tok true, .update tok true, .createSignedUrl (tok ++ ".bin") 60 true],
        .redirect ⟨tok ++ ".bin", 60⟩) ∧
    ∀ elapsed, elapsed < 60 →
      fetchSigned (download d1 tok (serve between (apiUpload env req s).1)).1
        ⟨tok ++ ".bin", 60⟩ elapsed = some X := by
  obtain ⟨a, hv, htok, -, hrows1, -, hfind1, hcalls⟩ :=
    after_issue env req s tok url hIssue between hBetween
  obtain ⟨hb, -, -⟩ := validate_ok_fields req a hv
  have hXa : a.fileBuffer = X := by
    rw [hX] at hb
    injection hb with hb
    exact hb.symm
  obtain ⟨hsel1, hupd1, hsign1⟩ := hd1
  have hsel : (serve between (apiUpload env req s).1).selectSingle tok d1.selectFault
      = some (issuedRow env a) := by
    rw [hsel1]; exact selectSingle_of_rows _ _ _ hrows1
  have hgrant := download_grant d1 tok (serve between (apiUpload env req s).1)
    (issuedRow env a) hsel rfl (by simp only [issuedRow]; omega) hsign1
  refine ⟨?_, ?_, ?_⟩
  · rw [hcalls, hXa]
    simp
  · rw [hgrant, hupd1]
    rfl
  · intro elapsed hel
    rw [hgrant]
    simp only [fetchSigned, hel, if_true, encrypted_updateUsed, hfind1, Option.map_some',
      issuedObject, hXa]

/-- Witness of C12: the payload `[1, 2, 3]` of `report.pdf`, a meta lookup in
between, the download at time 5000, the fetch 10 seconds later. -/
theorem payload_round_trip_witness :
    fetchSigned
      (download ⟨5000, false, false, false⟩ "V1StGXR8_Z5j"
        (serve [.meta false "V1StGXR8_Z5j"]
          (apiUpload ⟨"V1StGXR8_Z5j", 1000, "http://localhost:3000", none, none⟩
            ⟨some [1, 2, 3], some "application/pdf", some "report.pdf"⟩ ⟨[], []⟩).1)).1
      ⟨"V1StGXR8_Z5j" ++ ".bin", 60⟩ 10 = some [1, 2, 3] :=
  (payload_round_trip ⟨"V1StGXR8_Z5j", 1000, "http://localhost:3000", none, none⟩
    ⟨some [1, 2, 3], some "application/pdf", some "report.pdf"⟩ ⟨[], []⟩
    "V1StGXR8_Z5j" "http://localhost:3000/download/V1StGXR8_Z5j" [1, 2, 3] (by decide) rfl
    [.meta false "V1StGXR8_Z5j"] (by simp) ⟨5000, false, false, false⟩ ⟨rfl, rfl, rfl⟩
    (by decide)).2.2 10 (by decide)

/-- C13, as stated, fails for the file name: after an upload with the header
`report.pdf%20` the meta lookup of the token answers `original_name:
"report.pdf"`, which is neither the declared header nor its decoding
`"report.pdf "`. -/
theorem metadata_name_is_trimmed :
    (apiMeta false "V1StGXR8_Z5j"
        (apiUpload ⟨"V1StGXR8_Z5j", 1000, "http://localhost:3000", none, none⟩
          ⟨some [1, 2, 3], some "application/pdf", some "report.pdf%20"⟩ ⟨[], []⟩).1).2.2
      = .json 200 [("original_name", "report.pdf"), ("mime", "application/pdf")] ∧
    (apiMeta false "V1StGXR8_Z5j"
        (apiUpload ⟨"V1StGXR8_Z5j", 1000, "http://localhost:3000", none, none⟩
          ⟨some [1, 2, 3], some "application/pdf", some "report.pdf%20"⟩ ⟨[], []⟩).1).2.2
      ≠ .json 200 [("original_name", "report.pdf%20"), ("mime", "application/pdf")] ∧
    (apiMeta false "V1StGXR8_Z5j"
        (apiUpload ⟨"V1StGXR8_Z5j", 1000, "http://localhost:3000", none, none⟩
          ⟨some [1, 2, 3], some "application/pdf", some "report.pdf%20"⟩ ⟨[], []⟩).1).2.2
      ≠ .json 200 [("original_name", "report.pdf "), ("mime", "application/pdf")] := by
  decide

/-- C13, amended.  For every token returned by an upload with declared MIME
type `M` and a file name header that decodes to `decoded`: after any further
requests, downloads of the token included, the meta lookup of the token, when
its query is answered, returns exactly `original_name` = the decoded and trimmed
file name and `mime = M`.  For every token without a row the meta lookup answers
404 with `metadata tidak ditemukan`. -/
theorem metadata_lookup (env : UploadEnv) (req : UploadReq) (s : Store) (tok url : String)
    (hIssue : (apiUpload env req s).2.2 = .json 200 [("token", tok), ("downloadUrl", url)]) :
    (∃ M decoded, req.xMime = some M ∧
      decodeURIComponent (req.xFilename.getD "") = some decoded ∧
      ∀ later : List Request,
        (apiMeta false tok (serve later (apiUpload env req s).1)).2.2 =
          .json 200 [("original_name", jsTrim decoded), ("mime", M)]) ∧
    (∀ (s0 : Store) (t : String) (fault : Bool), s0.rowsOf t = [] →
      (apiMeta fault t s0).2.2 = .json 404 [("error", "metadata tidak ditemukan")]) := by
  constructor
  · obtain ⟨a, hv, -, hrows0, -, -, -, -⟩ :=
      after_issue env req s tok url hIssue [] (by simp)
    obtain ⟨-, hm, decoded, hdec, hname⟩ := validate_ok_fields req a hv
    refine ⟨a.mime, decoded, hm, hdec, ?_⟩
    intro later
    obtain ⟨u, hu⟩ := rowsOf_serve_any later _ tok _ hrows0
    rw [apiMeta_found tok _ _ hu]
    simp [issuedRow, hname]
  · intro s0 t fault h0
    rw [apiMeta_missing fault t s0 h0]

/-- Witness of the amended C13: `report.pdf` of type `application/pdf`, looked
up after the token was redeemed. -/
theorem metadata_lookup_witness :
    (apiMeta false "V1StGXR8_Z5j"
      (serve [.download ⟨5000, false, false, false⟩ "V1StGXR8_Z5j"]
        (apiUpload ⟨"V1StGXR8_Z5j", 1000, "http://localhost:3000", none, none⟩
          ⟨some [1, 2, 3], some "application/pdf", some "report.pdf"⟩ ⟨[], []⟩).1)).2.2
      = .json 200 [("original_name", "report.pdf"), ("mime", "application/pdf")] := by
  obtain ⟨⟨M, decoded, hm, hd, hall⟩, -⟩ :=
    metadata_lookup ⟨"V1StGXR8_Z5j", 1000, "http://localhost:3000", none, none⟩
      ⟨some [1, 2, 3], some "application/pdf", some "report.pdf"⟩ ⟨[], []⟩
      "V1StGXR8_Z5j" "http://localhost:3000/download/V1StGXR8_Z5j" (by decide)
  have hM : M = "application/pdf" := by injection hm with hm; exact hm.symm
  have hD : decoded = "report.pdf" := by
    have h2 : decodeURIComponent "report.pdf" = some "report.pdf" := by decide
    have h3 : decodeURIComponent "report.pdf" = some decoded := hd
    rw [h2] at h3
    injection h3 with h3
    exact h3.symm
  subst hM hD
  have hT : jsTrim "report.pdf" = "report.pdf" := by decide
  rw [← hT]
  exact hall [.download ⟨5000, false, false, false⟩ "V1StGXR8_Z5j"]

/-- C14. The meta handler is read-only and idempotent: for every store, every
token and either behaviour of the query, it leaves the table and the bucket
unchanged (every row keeps its `used` and its `expires_at`), its only call is
the query, and a second lookup of the same token right after the first returns
the same result. -/
theorem metadata_read_only (fault : Bool) (token : String) (s : Store) :
    (apiMeta fault token s).1 = s ∧
    (∃ found, (apiMeta fault token s).2.1 = [.select "original_name, mime" token found]) ∧
    apiMeta fault token (apiMeta fault token s).1 = apiMeta fault token s := by
  refine ⟨apiMeta_store fault token s, ?_, by rw [apiMeta_store]⟩
  unfold apiMeta
  split
  · exact ⟨false, rfl⟩
  · exact ⟨true, rfl⟩

/-- C15. A download that is refused with `token kedaluwarsa`, `token tidak
ditemukan` or `token sudah dipakai` leaves the store unchanged and makes no call
but its query: no update and no request for a signed URL.  In particular the
download of an unused row past its expiry is refused with `token kedaluwarsa`
and the query still finds the same row, unused, afterwards. -/
theorem refused_redemption_keeps_store (d : DownloadEnv) (token : String) (s : Store) :
    ((download d token s).2.2 = .send 404 "token kedaluwarsa" ∨
      (download d token s).2.2 = .send 404 "token tidak ditemukan" ∨
      (download d token s).2.2 = .send 404 "token sudah dipakai" →
        (download d token s).1 = s ∧
        (∃ found, (download d token s).2.1 = [.select "*" token found]) ∧
        ∀ c ∈ (download d token s).2.1,
          (∀ ok, c ≠ .update token ok) ∧ ∀ p n ok, c ≠ .createSignedUrl p n ok) ∧
    (∀ row, s.selectSingle token d.selectFault = some row → row.used = false →
      row.expires_at < d.now →
        (download d token s).2.2 = .send 404 "token kedaluwarsa" ∧
        (download d token s).1.selectSingle token d.selectFault = some row ∧
        ∀ r ∈ (download d token s).1.rowsOf token, r.used = false) := by
  constructor
  · intro h
    rcases download_cases d token s with hc | hc | hc | hc | hc
    · rw [hc]; exact ⟨rfl, ⟨false, rfl⟩, by simp⟩
    · rw [hc]; exact ⟨rfl, ⟨true, rfl⟩, by simp⟩
    · rw [hc]; exact ⟨rfl, ⟨true, rfl⟩, by simp⟩
    · rw [hc] at h
      exfalso
      revert h
      simp only [Response.send.injEq, true_and]
      decide
    · rw [hc] at h
      simp at h
  · intro row hsel hused hexp
    rw [download_expired d token s row hsel hused hexp]
    refine ⟨rfl, hsel, ?_⟩
    intro r hr
    rw [rows_of_selectSingle s token d.selectFault row hsel] at hr
    simp only [List.mem_singleton] at hr
    rw [hr]
    exact hused

/-- Witness of C15: an unused row one millisecond past its expiry stays unused. -/
theorem refused_redemption_keeps_store_witness :
    (download ⟨86401001, false, false, false⟩ "V1StGXR8_Z5j"
      ⟨[⟨"V1StGXR8_Z5j", "report.pdf", "application/pdf", 3, 86401000, false⟩],
       [⟨"V1StGXR8_Z5j.bin", [1, 2, 3], "application/octet-stream"⟩]⟩).1 =
      ⟨[⟨"V1StGXR8_Z5j", "report.pdf", "application/pdf", 3, 86401000, false⟩],
       [⟨"V1StGXR8_Z5j.bin", [1, 2, 3], "application/octet-stream"⟩]⟩ :=
  ((refused_redemption_keeps_store ⟨86401001, false, false, false⟩ "V1StGXR8_Z5j"
    ⟨[⟨"V1StGXR8_Z5j", "report.pdf", "application/pdf", 3, 86401000, false⟩],
     [⟨"V1StGXR8_Z5j.bin", [1, 2, 3], "application/octet-stream"⟩]⟩).1
    (Or.inl (by decide))).1

/-- C16. The responses of the download handler for a token that the query does
not find, for a used token and for an unused token past its expiry are the three
texts `token tidak ditemukan`, `token sudah dipakai` and `token kedaluwarsa`
(all with status 404); they are pairwise distinct, and each differs from the
success response, which is a redirect. -/
theorem redeem_failures_distinct (d : DownloadEnv) (token : String) (s : Store) :
    (s.selectSingle token d.selectFault = none →
      (download d token s).2.2 = .send 404 "token tidak ditemukan") ∧
    (∀ row, s.selectSingle token d.selectFault = some row → row.used = true →
      (download d token s).2.2 = .send 404 "token sudah dipakai") ∧
    (∀ row, s.selectSingle token d.selectFault = some row → row.used = false →
      row.expires_at < d.now →
      (download d token s).2.2 = .send 404 "token kedaluwarsa") ∧
    (∀ row, s.selectSingle token d.selectFault = some row → row.used = false →
      ¬ row.expires_at < d.now → d.signFault = false →
      (download d token s).2.2 = .redirect ⟨token ++ ".bin", 60⟩) ∧
    Response.send 404 "token tidak ditemukan" ≠ .send 404 "token sudah dipakai" ∧
    Response.send 404 "token tidak ditemukan" ≠ .send 404 "token kedaluwarsa" ∧
    Response.send 404 "token sudah dipakai" ≠ .send 404 "token kedaluwarsa" ∧
    ∀ u, Response.send 404 "token tidak ditemukan" ≠ .redirect u ∧
      Response.send 404 "token sudah dipakai" ≠ .redirect u ∧
      Response.send 404 "token kedaluwarsa" ≠ .redirect u := by
  refine ⟨?_, ?_, ?_, ?_, by decide, by decide, by decide, ?_⟩
  · intro h
    rw [download_missing d token s h]
  · intro row h hu
    rw [download_used d token s row h hu]
  · intro row h hu he
    rw [download_expired d token s row h hu he]
  · intro row h hu he hs
    rw [download_grant d token s row h hu he hs]
  · intro u
    simp

/-- Witness of C16: an unknown token on the empty store. -/
theorem redeem_failures_distinct_witness :
    (download ⟨5000, false, false, false⟩ "V1StGXR8_Z5j" ⟨[], []⟩).2.2
      = .send 404 "token tidak ditemukan" :=
  (redeem_failures_distinct ⟨5000, false, false, false⟩ "V1StGXR8_Z5j" ⟨[], []⟩).1 (by decide)

/-- C17. For every trimmed file name without a period, the extension computed
by the validation, `split('.').pop().toLowerCase()`, is the whole name
lower-cased; a request that passes the first five rules with such a name is
accepted exactly when the whole name, lower-cased, is png, jpg, jpeg or pdf, and
is otherwise rejected with `ekstensi dilarang` (`PDF` is accepted, `report` is
rejected).  A file name that ends in a period has the empty extension; a
request that passes the first five rules with it is rejected with `ekstensi
dilarang`, and no request with such a name is accepted. -/
theorem extension_without_period :
    (∀ name : String, '.' ∉ name.data →
      toLowerCase (lastSegment name) = toLowerCase name) ∧
    (∀ (req : UploadReq) (buf : Bytes) (mime name : String),
      req.body = some buf → buf ≠ [] → buf.length ≤ MAX_SIZE →
      mimeAllowed req.xMime = some mime → declaredName req = some name →
      name ≠ "" → hasIllegalChar name = false → '.' ∉ name.data →
      ((∃ a, validate req = .ok a) ↔ toLowerCase name ∈ ["png", "jpg", "jpeg", "pdf"]) ∧
      (toLowerCase name ∉ ["png", "jpg", "jpeg", "pdf"] →
        validate req = .error "ekstensi dilarang")) ∧
    validate ⟨some [0], some "application/pdf", some "PDF"⟩
      = .ok ⟨[0], "application/pdf", "PDF"⟩ ∧
    validate ⟨some [0], some "application/pdf", some "report"⟩ = .error "ekstensi dilarang" ∧
    (∀ (name : String) (pre : List Char), name.data = pre ++ ['.'] →
      toLowerCase (lastSegment name) = "" ∧
      ∀ (req : UploadReq) (buf : Bytes) (mime : String),
        req.body = some buf → buf ≠ [] → buf.length ≤ MAX_SIZE →
        mimeAllowed req.xMime = some mime → declaredName req = some name →
        name ≠ "" → hasIllegalChar name = false →
        validate req = .error "ekstensi dilarang") ∧
    (∀ (name : String) (pre : List Char), name.data = pre ++ ['.'] →
      ∀ req : UploadReq, declaredName req = some name → ∀ a, validate req ≠ .ok a) := by
  have hwhole : ∀ name : String, '.' ∉ name.data → lastSegment name = name := by
    intro name h
    unfold lastSegment
    rw [splitDot_no_dot name.data h]
    rfl
  have hdot : ∀ (name : String) (pre : List Char), name.data = pre ++ ['.'] →
      toLowerCase (lastSegment name) = "" := by
    intro name pre h
    unfold lastSegment
    rw [h, splitDot_getLastD pre [] (by simp)]
    rfl
  refine ⟨?_, ?_, by decide, by decide, ?_, ?_⟩
  rotate_right
  · intro name pre h req hd a ha
    obtain ⟨hd2, hext⟩ := validate_ok_ext req a ha
    rw [hd] at hd2
    injection hd2 with hd2
    rw [← hd2, hdot name pre h] at hext
    exact absurd hext (by decide)
  · intro name h
    rw [hwhole name h]
  · intro req buf mime name hb hne hsz hm hd hn hi hdotless
    have hv := validate_rule6 req buf mime name hb hne hsz hm hd hn hi
    rw [hwhole name hdotless] at hv
    by_cases hext : toLowerCase name ∈ ALLOWED_EXT
    · rw [if_pos hext] at hv
      exact ⟨⟨fun _ => hext, fun _ => ⟨_, hv⟩⟩, fun h => absurd hext h⟩
    · rw [if_neg hext] at hv
      refine ⟨⟨?_, fun h => absurd h hext⟩, fun _ => hv⟩
      rintro ⟨a, ha⟩
      rw [hv] at ha
      exact Except.noConfusion ha
  · intro name pre h
    refine ⟨hdot name pre h, ?_⟩
    intro req buf mime hb hne hsz hm hd hn hi
    have hv := validate_rule6 req buf mime name hb hne hsz hm hd hn hi
    rw [hdot name pre h] at hv
    have hempty : ¬ "" ∈ ALLOWED_EXT := by decide
    rw [if_neg hempty] at hv
    exact hv

/-- Witness of C17: the name `report` has no period and is its own extension. -/
theorem extension_without_period_witness :
    toLowerCase (lastSegment "report") = toLowerCase "report" :=
  extension_without_period.1 "report" (by decide)

/-- C18. Consumption without delivery.  Let the query of a download find an
unused row that is not past its expiry, let the update succeed and let the
signed URL come back without data.  The caller gets a 404 with an error text and
no redirect, yet the row is marked used.  After any further requests, a
download of the same token is never redirected and asks for no signed URL, and
as long as its query is answered it is refused with `token sudah dipakai`. -/
theorem consumption_without_delivery (d1 : DownloadEnv) (token : String) (s : Store)
    (row : FileRow)
    (hsel : s.selectSingle token d1.selectFault = some row)
    (hused : row.used = false) (hexp : ¬ row.expires_at < d1.now)
    (hupd : d1.updateFault = false) (hsign : d1.signFault = true) :
    (download d1 token s).2.2 = .send 404 nullSigned ∧
    (∀ u, (download d1 token s).2.2 ≠ .redirect u) ∧
    (download d1 token s).1.rowsOf token = [{ row with used := true }] ∧
    ∀ (later : List Request) (d2 : DownloadEnv),
      (∀ u, (download d2 token (serve later (download d1 token s).1)).2.2 ≠ .redirect u) ∧
      (∀ c ∈ (download d2 token (serve later (download d1 token s).1)).2.1,
        ∀ p n ok, c ≠ .createSignedUrl p n ok) ∧
      (d2.selectFault = false →
        (download d2 token (serve later (download d1 token s).1)).2.2
          = .send 404 "token sudah dipakai") := by
  have hrows := rows_of_selectSingle s token d1.selectFault row hsel
  have hrun := download_unsigned d1 token s row hsel hused hexp hsign
  have hrows2 : (download d1 token s).1.rowsOf token = [{ row with used := true }] := by
    rw [hrun]
    simp [rowsOf_updateUsed, hrows, hupd]
  refine ⟨by rw [hrun], by rw [hrun]; simp, hrows2, ?_⟩
  intro later d2
  have hrows3 : (serve later (download d1 token s).1).rowsOf token
      = [{ row with used := true }] := by
    rw [rowsOf_serve_used later _ token (by rw [hrows2]; simp) (by rw [hrows2]; simp), hrows2]
  cases hf : d2.selectFault with
  | true =>
    have hmiss := download_missing d2 token (serve later (download d1 token s).1)
      (by simp [Store.selectSingle, hf])
    rw [hmiss]
    simp
  | false =>
    have hsel2 := selectSingle_of_rows _ _ _ hrows3
    rw [← hf] at hsel2
    have hu := download_used d2 token _ _ hsel2 rfl
    rw [hu]
    simp

/-- Witness of C18: the signing fails on the first download of `report.pdf`;
the second download is refused as already used. -/
theorem consumption_without_delivery_witness :
    (download ⟨5000, false, false, true⟩ "V1StGXR8_Z5j"
      ⟨[⟨"V1StGXR8_Z5j", "report.pdf", "application/pdf", 3, 86401000, false⟩],
       [⟨"V1StGXR8_Z5j.bin", [1, 2, 3], "application/octet-stream"⟩]⟩).2.2
      = .send 404 nullSigned ∧
    (download ⟨6000, false, false, false⟩ "V1StGXR8_Z5j"
      (serve []
        (download ⟨5000, false, false, true⟩ "V1StGXR8_Z5j"
          ⟨[⟨"V1StGXR8_Z5j", "report.pdf", "application/pdf", 3, 86401000, false⟩],
           [⟨"V1StGXR8_Z5j.bin", [1, 2, 3], "application/octet-stream"⟩]⟩).1)).2.2
      = .send 404 "token sudah dipakai" :=
  have h := consumption_without_delivery ⟨5000, false, false, true⟩ "V1StGXR8_Z5j"
    ⟨[⟨"V1StGXR8_Z5j", "report.pdf", "application/pdf", 3, 86401000, false⟩],
     [⟨"V1StGXR8_Z5j.bin", [1, 2, 3], "application/octet-stream"⟩]⟩
    ⟨"V1StGXR8_Z5j", "report.pdf", "application/pdf", 3, 86401000, false⟩
    (by decide) rfl (by decide) rfl rfl
  ⟨h.1, (h.2.2.2 [] ⟨6000, false, false, false⟩).2.2 rfl⟩

end WebTest
